/-
Verification of the snake-and-ladder game core against its specification.

This file shallowly embeds the game's data model and operations:
  * `src/app/models/*` (Player, Team, SnakeOrLadder, DiceConfiguration, GameState,
    and their factory/validator functions),
  * `src/app/services/game.service.ts` (the state-transition operations),
  * the storage service (serialize/deserialize/validate/load), and
  * `src/app/utils/board-layout.util.ts` (random hazard generation),
and proves/refutes the frozen claims about them.

Modelling conventions:
  * JS `number` values that are always integers in the code are modelled as `Int`
    (board positions, dice values, round counters, turn orders).  Where the code
    checks `Number.isInteger`, the argument is modelled as `ℚ` and the check as
    `den = 1`.
  * JS `Date` objects are modelled by their millisecond timestamp (`Int`).
    `new Date()` is an effect, so every mutating operation takes the current
    time `now : Int` as an explicit argument (mirroring `updateState`, which
    stamps `lastUpdatedAt: new Date()` on every successful update).
  * `uuidv4()` is nondeterministic, so factories take the fresh identifier as an
    explicit `String` argument.
  * Operations that can `throw` return `Except GameError _`; an `error` result
    models a thrown exception with the state unchanged.
-/
import Mathlib

namespace SnakeGame

/-- Typed errors thrown by the model/service layer (each TS error class is one
constructor; messages are omitted, the constructor is the error's identity). -/
inductive GameError where
  | invalidPlayerCount
  | invalidPosition
  | playerNotFound
  | playerNotAtHundred
  | invalidMaxPoints
  | invalidSnake
  | invalidLadder
  | duplicateStartPosition
  | finishedTarget
  deriving DecidableEq, Repr

/-- `team.model.ts`: a team record. -/
structure Team where
  id : String
  name : String
  color : String
  deriving DecidableEq, Repr

/-- `snake-or-ladder.model.ts`: the `type` field's two values. -/
inductive HazardKind where
  | snake
  | ladder
  deriving DecidableEq, Repr

/-- `snake-or-ladder.model.ts`: a snake or ladder. The TS field `type` is named
`kind` here because `type` reads poorly as a Lean field name. -/
structure SnakeOrLadder where
  id : String
  kind : HazardKind
  startPosition : Int
  endPosition : Int
  deriving DecidableEq, Repr

/-- `player.model.ts`: a player record.  `finishTime?: Date` is an optional
timestamp. -/
structure Player where
  id : String
  name : String
  color : String
  teamId : Option String
  teamColor : Option String
  position : Int
  isFinished : Bool
  finishTime : Option Int
  turnOrder : Int
  deriving DecidableEq, Repr

/-- `game-state.model.ts`: dice settings. `pendingMaxPoints?: number | null`;
the code only ever stores `null` or a number there, so `Option Int` models it. -/
structure DiceConfiguration where
  maxPoints : Int
  pendingMaxPoints : Option Int
  deriving DecidableEq, Repr

/-- `fixed-map.constant.ts`: `MapType = 'random' | 'fixed'`. -/
inductive MapType where
  | randomMap
  | fixedMap
  deriving DecidableEq, Repr

/-- `game-state.model.ts`: the aggregate game state. -/
structure GameState where
  gameId : String
  players : List Player
  teams : List Team
  snakesAndLadders : List SnakeOrLadder
  mapType : MapType
  currentDiceRollerId : String
  selectedTargetId : Option String
  lastDiceResult : Option Int
  diceConfig : DiceConfiguration
  currentRound : Int
  turnsInCurrentRound : Int
  isGameStarted : Bool
  isGameFinished : Bool
  showTokenForPlayerId : Option String
  winningPositions : List Int
  createdAt : Int
  lastUpdatedAt : Int
  deriving DecidableEq, Repr

/-- `validatePlayerCount` (game-state.model.ts): throws iff `count < 2`. -/
def validatePlayerCount (count : Int) : Except GameError Unit :=
  if count < 2 then .error .invalidPlayerCount else .ok ()

/-- `validatePosition` (game-state.model.ts): throws iff `position < 0 || position > 100`. -/
def validatePosition (position : Int) : Except GameError Unit :=
  if position < 0 ∨ position > 100 then .error .invalidPosition else .ok ()

/-- `createInitialGameState` (game-state.model.ts).  `uuidv4()` and `new Date()`
are passed in as `gameId` and `now`. -/
def createInitialGameState (gameId : String) (now : Int)
    (players : List Player) (snakesAndLadders : List SnakeOrLadder)
    (teams : List Team) (winningPositions : List Int) (mapType : MapType) :
    Except GameError GameState := do
  validatePlayerCount players.length
  -- Ensure position 16 is always included
  let finalWinningPositions :=
    if 16 ∈ winningPositions then winningPositions else 16 :: winningPositions
  return {
    gameId := gameId
    players := players
    teams := teams
    snakesAndLadders := snakesAndLadders
    mapType := mapType
    -- `players[0]?.id || ''`; validation guarantees players is nonempty
    currentDiceRollerId := ((players.head?).map (·.id)).getD ""
    selectedTargetId := none
    lastDiceResult := none
    diceConfig := { maxPoints := 12, pendingMaxPoints := none }
    currentRound := 1
    turnsInCurrentRound := 0
    isGameStarted := false
    isGameFinished := false
    showTokenForPlayerId := none
    -- `.sort((a, b) => a - b)`: ascending numeric sort
    winningPositions := finalWinningPositions.mergeSort (fun a b => a ≤ b)
    createdAt := now
    lastUpdatedAt := now }

/-- `GameService.movePlayer` (game.service.ts).  The wrapping `updateState`
stamps `lastUpdatedAt := now` on success; a thrown error leaves the state as it
was (modelled by the `Except.error` result). -/
def movePlayer (playerId : String) (steps : Int) (now : Int) (s : GameState) :
    Except GameError GameState :=
  match s.players.findIdx? (fun p => p.id == playerId) with
  | none => .error .playerNotFound
  | some playerIndex =>
    match s.players[playerIndex]? with
    | none => .error .playerNotFound -- unreachable: findIdx? indices are in bounds
    | some player =>
      let newPosition := player.position + steps
      -- Don't move beyond position 100
      let finalPosition := if newPosition > 100 then player.position else newPosition
      match validatePosition finalPosition with
      | .error e => .error e
      | .ok _ =>
        let updatedPlayers := s.players.set playerIndex { player with position := finalPosition }
        .ok { s with players := updatedPlayers, lastUpdatedAt := now }

/-- `GameService.checkWinCondition` (game.service.ts): true iff the player is
found and its position is exactly 100. -/
def checkWinCondition (s : GameState) (playerId : String) : Bool :=
  match s.players.find? (fun p => p.id == playerId) with
  | some player => player.position == 100
  | none => false

/-- `GameService.markPlayerFinished` (game.service.ts): requires position 100,
sets `isFinished` and stamps `finishTime` with the current time. -/
def markPlayerFinished (playerId : String) (now : Int) (s : GameState) :
    Except GameError GameState :=
  match s.players.findIdx? (fun p => p.id == playerId) with
  | none => .error .playerNotFound
  | some playerIndex =>
    match s.players[playerIndex]? with
    | none => .error .playerNotFound -- unreachable: findIdx? indices are in bounds
    | some player =>
      if player.position ≠ 100 then .error .playerNotAtHundred
      else
        let updatedPlayers := s.players.set playerIndex
          { player with isFinished := true, finishTime := some now }
        .ok { s with players := updatedPlayers, lastUpdatedAt := now }

/-- The `state.players.filter(p => !p.isFinished)` step of `nextTurn`. -/
def activePlayers (s : GameState) : List Player :=
  s.players.filter (fun p => !p.isFinished)

/-- The `[...activePlayers].sort((a, b) => a.turnOrder - b.turnOrder)` step of
`nextTurn` (JS sort is stable; so is `mergeSort`). -/
def sortedActivePlayers (s : GameState) : List Player :=
  (activePlayers s).mergeSort (fun a b => a.turnOrder ≤ b.turnOrder)

/-- `GameService.nextTurn` (game.service.ts).  Notes on JS semantics mirrored
here: `findIndex` yields `-1` when the current roller is not among the active
players, making `nextIndex = (-1 + 1) % len = 0`; the guarded index access
`sortedActivePlayers[nextIndex].id` is always in bounds since `len > 0`, the
`.getD ""` fallback is unreachable.  `turnsInCurrentRound ?? 0` and
`currentRound ?? 1` are identities because the fields are non-nullable in this
model (the factory and the deserializer always set them). -/
def nextTurn (now : Int) (s : GameState) : GameState :=
  let active := activePlayers s
  if active.length = 0 then
    -- No active players, game should be finished; updateState still stamps the time
    { s with lastUpdatedAt := now }
  else
    let sorted := sortedActivePlayers s
    let nextIndex :=
      match sorted.findIdx? (fun p => p.id == s.currentDiceRollerId) with
      | some currentIndex => (currentIndex + 1) % sorted.length
      | none => 0 -- JS: findIndex = -1, so (-1 + 1) % len = 0
    let nextRollerId := ((sorted[nextIndex]?).map (·.id)).getD ""
    let newTurnsInCurrentRound := s.turnsInCurrentRound + 1
    if newTurnsInCurrentRound ≥ active.length then
      -- round rollover: reset the counter, bump the round, apply pending config
      let newDiceConfig :=
        match s.diceConfig.pendingMaxPoints with
        | some pending => { maxPoints := pending, pendingMaxPoints := none }
        | none => s.diceConfig
      { s with
        currentDiceRollerId := nextRollerId
        selectedTargetId := none
        lastDiceResult := none
        turnsInCurrentRound := 0
        currentRound := s.currentRound + 1
        diceConfig := newDiceConfig
        lastUpdatedAt := now }
    else
      { s with
        currentDiceRollerId := nextRollerId
        selectedTargetId := none
        lastDiceResult := none
        turnsInCurrentRound := newTurnsInCurrentRound
        currentRound := s.currentRound
        diceConfig := s.diceConfig
        lastUpdatedAt := now }

/-- `GameService.validateMaxPoints`: `Number.isInteger(maxPoints) && maxPoints >= 1`.
The argument is a JS number, modelled as `ℚ`; `Number.isInteger` is `den = 1`. -/
def validateMaxPoints (maxPoints : ℚ) : Bool :=
  maxPoints.den == 1 && 1 ≤ maxPoints

/-- `GameService.updateDiceConfig`: immediate change of the dice bound. -/
def updateDiceConfig (maxPoints : ℚ) (now : Int) (s : GameState) :
    Except GameError GameState :=
  if !validateMaxPoints maxPoints then .error .invalidMaxPoints
  else .ok { s with
    diceConfig := { s.diceConfig with maxPoints := maxPoints.num }
    lastUpdatedAt := now }

/-- `GameService.updateDiceConfigPending`: stages the dice bound for the next
round. -/
def updateDiceConfigPending (maxPoints : ℚ) (now : Int) (s : GameState) :
    Except GameError GameState :=
  if !validateMaxPoints maxPoints then .error .invalidMaxPoints
  else .ok { s with
    diceConfig := { s.diceConfig with pendingMaxPoints := some maxPoints.num }
    lastUpdatedAt := now }

/-- `GameService.rollDice`: `Math.floor(Math.random() * maxPoints) + 1`, with
the `Math.random()` draw `u ∈ [0,1)` passed explicitly. -/
def rollDice (u : ℚ) (s : GameState) : Int :=
  ⌊u * s.diceConfig.maxPoints⌋ + 1

/-! ## Persistence codec (storage service)

`Date.prototype.toISOString` is injective on millisecond timestamps and
`new Date(isoString)` inverts it.  Both are JS built-ins external to the
repository, so the ISO-8601 string is modelled by the timestamp it encodes,
wrapped in its own type so that serialized records and live states stay
distinct types. -/

/-- An ISO-8601 date string, represented by the millisecond timestamp it
encodes (see module note above). -/
structure IsoDateString where
  encodedMs : Int
  deriving DecidableEq, Repr

/-- `Date.prototype.toISOString`. -/
def toISOString (ms : Int) : IsoDateString := ⟨ms⟩

/-- `new Date(isoString)` applied to a string produced by `toISOString`. -/
def parseISOString (s : IsoDateString) : Int := s.encodedMs

/-- A player as it appears inside a stored record produced by
`StorageService.serializeState`: `finishTime` becomes an ISO string (or stays
absent). -/
structure SerializedPlayer where
  id : String
  name : String
  color : String
  teamId : Option String
  teamColor : Option String
  position : Int
  isFinished : Bool
  finishTime : Option IsoDateString
  turnOrder : Int
  deriving DecidableEq, Repr

/-- A stored record produced by `StorageService.serializeState`: the spread of
the game state with `createdAt`, `lastUpdatedAt` and each player's `finishTime`
encoded as ISO strings. -/
structure SerializedGameState where
  gameId : String
  players : List SerializedPlayer
  teams : List Team
  snakesAndLadders : List SnakeOrLadder
  mapType : MapType
  currentDiceRollerId : String
  selectedTargetId : Option String
  lastDiceResult : Option Int
  diceConfig : DiceConfiguration
  currentRound : Int
  turnsInCurrentRound : Int
  isGameStarted : Bool
  isGameFinished : Bool
  showTokenForPlayerId : Option String
  winningPositions : List Int
  createdAt : IsoDateString
  lastUpdatedAt : IsoDateString
  deriving DecidableEq, Repr

/-- `StorageService.serializeState`: `{...state}` with the date fields ISO
encoded (`player.finishTime ? toISOString : undefined`). -/
def serializeState (state : GameState) : SerializedGameState :=
  { gameId := state.gameId
    players := state.players.map (fun player =>
      { id := player.id
        name := player.name
        color := player.color
        teamId := player.teamId
        teamColor := player.teamColor
        position := player.position
        isFinished := player.isFinished
        finishTime := player.finishTime.map toISOString
        turnOrder := player.turnOrder })
    teams := state.teams
    snakesAndLadders := state.snakesAndLadders
    mapType := state.mapType
    currentDiceRollerId := state.currentDiceRollerId
    selectedTargetId := state.selectedTargetId
    lastDiceResult := state.lastDiceResult
    diceConfig := state.diceConfig
    currentRound := state.currentRound
    turnsInCurrentRound := state.turnsInCurrentRound
    isGameStarted := state.isGameStarted
    isGameFinished := state.isGameFinished
    showTokenForPlayerId := state.showTokenForPlayerId
    winningPositions := state.winningPositions
    createdAt := toISOString state.createdAt
    lastUpdatedAt := toISOString state.lastUpdatedAt }

/-- `StorageService.deserializeState`, applied to a record of the shape
`serializeState` produces.  On such records every field is present, so the
source's backward-compatibility defaults (`currentRound ?? 1`,
`turnsInCurrentRound ?? 0`, `teams ?? []`, `diceConfig?.maxPoints ?? 12`,
`pendingMaxPoints ?? null`, `teamId ?? undefined`, `teamColor ?? undefined`)
are identities and the remaining content is the date decoding shown here.
(`deserializeStateRaw` below models the same function on arbitrary parsed
JSON, where those defaults do fire.) -/
def deserializeState (data : SerializedGameState) : GameState :=
  { gameId := data.gameId
    players := data.players.map (fun player =>
      { id := player.id
        name := player.name
        color := player.color
        teamId := player.teamId
        teamColor := player.teamColor
        position := player.position
        isFinished := player.isFinished
        finishTime := player.finishTime.map parseISOString
        turnOrder := player.turnOrder })
    teams := data.teams
    snakesAndLadders := data.snakesAndLadders
    mapType := data.mapType
    currentDiceRollerId := data.currentDiceRollerId
    selectedTargetId := data.selectedTargetId
    lastDiceResult := data.lastDiceResult
    diceConfig := { maxPoints := data.diceConfig.maxPoints
                    pendingMaxPoints := data.diceConfig.pendingMaxPoints }
    currentRound := data.currentRound
    turnsInCurrentRound := data.turnsInCurrentRound
    isGameStarted := data.isGameStarted
    isGameFinished := data.isGameFinished
    showTokenForPlayerId := data.showTokenForPlayerId
    winningPositions := data.winningPositions
    createdAt := parseISOString data.createdAt
    lastUpdatedAt := parseISOString data.lastUpdatedAt }

/-! ## Loading stored records of arbitrary shape

`StorageService.loadGameState` runs `JSON.parse`, then `deserializeState`, then
`validateState` over data of unknown shape.  A parsed JSON value is modelled by
`JsonValue`; the claims in scope only concern records that do parse, so the
model starts after `JSON.parse`.  A string accepted by JS date parsing is
modelled by the dedicated constructor `jdate` carrying the timestamp it
denotes, all other strings by `jstr` (JS date parsing of them yields an
Invalid Date). -/

/-- A parsed JSON value (`JSON.parse` output).  `jdate ms` is a string that JS
`new Date(string)` parses to the valid timestamp `ms`; `jstr` is any other
string. -/
inductive JsonValue where
  | jnull
  | jbool (b : Bool)
  | jnum (q : ℚ)
  | jstr (s : String)
  | jdate (ms : Int)
  | jarr (elems : List JsonValue)
  | jobj (fields : List (String × JsonValue))

namespace JsonValue

/-- JS property access `v[key]`: `none` models `undefined` (absent property or
access on a non-object; `JSON.parse` objects have unique keys). -/
def jget (v : JsonValue) (key : String) : Option JsonValue :=
  match v with
  | jobj fields => (fields.find? (fun f => f.1 == key)).map (·.2)
  | _ => none

/-- JS truthiness of a possibly-undefined value
(`undefined`, `null`, `false`, `0`, `""` are falsy). -/
def jtruthy (v : Option JsonValue) : Bool :=
  match v with
  | none => false
  | some jnull => false
  | some (jbool b) => b
  | some (jnum q) => q ≠ 0
  | some (jstr s) => s ≠ ""
  | some (jdate _) => true -- a parseable date string is nonempty
  | some (jarr _) => true
  | some (jobj _) => true

/-- JS `x ?? d` on a possibly-undefined value. -/
def jnullish (v : Option JsonValue) (d : JsonValue) : JsonValue :=
  match v with
  | none => d
  | some jnull => d
  | some x => x

/-- `typeof v === 'string'` on a possibly-undefined value. -/
def isStringV (v : Option JsonValue) : Bool :=
  match v with
  | some (jstr _) => true
  | some (jdate _) => true
  | _ => false

/-- `typeof v === 'boolean'` on a possibly-undefined value. -/
def isBoolV (v : Option JsonValue) : Bool :=
  match v with
  | some (jbool _) => true
  | _ => false

/-- `typeof v === 'number'` on a possibly-undefined value. -/
def isNumberV (v : Option JsonValue) : Bool :=
  match v with
  | some (jnum _) => true
  | _ => false

/-- `Array.isArray(v)` on a possibly-undefined value. -/
def isArrayV (v : Option JsonValue) : Bool :=
  match v with
  | some (jarr _) => true
  | _ => false

/-- JS `new Date(v)` on a possibly-undefined value, as the resulting time
value: `some ms` is a valid Date, `none` an Invalid Date (NaN time).
`new Date(undefined)` is Invalid, `new Date(null)` is the epoch, numbers and
booleans coerce to a millisecond count (truncated), a parseable date string
yields its timestamp, any other string is Invalid; arrays and objects coerce
through strings and are modelled as Invalid. -/
def jsNewDate (v : Option JsonValue) : Option Int :=
  match v with
  | none => none
  | some jnull => some 0
  | some (jbool b) => some (if b then 1 else 0)
  | some (jnum q) => some ⌊q⌋
  | some (jstr _) => none
  | some (jdate ms) => some ms
  | some (jarr _) => none
  | some (jobj _) => none

end JsonValue

open JsonValue

/-- One element of the deserialized `players` array: the spread `{...player}`
(kept whole as `orig`) plus the fields `deserializeState` overrides.
`finishTime`'s outer `Option` is `undefined`-ness, the inner one Date
validity. -/
structure MappedRawPlayer where
  orig : JsonValue
  teamId : Option JsonValue
  teamColor : Option JsonValue
  finishTime : Option (Option Int)

/-- The `players.map(player => ({...player, ...}))` body of
`deserializeState`.  `player.teamId ?? undefined` sends `null` and `undefined`
to `undefined` and keeps anything else; `player.finishTime ? new Date(...) :
undefined` keys off truthiness. -/
def mapRawPlayer (p : JsonValue) : MappedRawPlayer :=
  { orig := p
    teamId := match jget p "teamId" with
      | some jnull => none
      | x => x
    teamColor := match jget p "teamColor" with
      | some jnull => none
      | x => x
    finishTime := if jtruthy (jget p "finishTime")
      then some (jsNewDate (jget p "finishTime"))
      else none }

/-- The object `deserializeState` returns for an arbitrary parsed record: the
spread `{...data}` (kept whole as `orig`; non-overridden properties are read
from it) plus every overridden field. -/
structure DeserializedRaw where
  orig : JsonValue
  createdAt : Option Int
  lastUpdatedAt : Option Int
  currentRound : JsonValue
  turnsInCurrentRound : JsonValue
  teams : JsonValue
  diceMaxPoints : JsonValue
  dicePendingMaxPoints : JsonValue
  players : List MappedRawPlayer

/-- A JS runtime error other than `CorruptedStateError` (e.g. the `TypeError`
from calling `.map` on `undefined`). -/
inductive JsError where
  | typeError (msg : String)

/-- `StorageService.deserializeState` on an arbitrary parsed JSON value.
`data.players.map(...)` throws a `TypeError` unless `data.players` is an
array; every other step is total.  `data.diceConfig?.maxPoints ?? 12` uses
optional chaining: a nullish `diceConfig` short-circuits to `undefined`. -/
def deserializeStateRaw (data : JsonValue) : Except JsError DeserializedRaw :=
  match jget data "players" with
  | some (jarr ps) =>
    .ok { orig := data
          createdAt := jsNewDate (jget data "createdAt")
          lastUpdatedAt := jsNewDate (jget data "lastUpdatedAt")
          currentRound := jnullish (jget data "currentRound") (jnum 1)
          turnsInCurrentRound := jnullish (jget data "turnsInCurrentRound") (jnum 0)
          teams := jnullish (jget data "teams") (jarr [])
          diceMaxPoints :=
            match jget data "diceConfig" with
            | some jnull => jnum 12
            | none => jnum 12
            | some dc => jnullish (jget dc "maxPoints") (jnum 12)
          dicePendingMaxPoints :=
            match jget data "diceConfig" with
            | some jnull => jnull
            | none => jnull
            | some dc => jnullish (jget dc "pendingMaxPoints") jnull
          players := ps.map mapRawPlayer }
  | some _ => .error (.typeError "data.players.map is not a function")
  | none => .error (.typeError "Cannot read properties of undefined (reading map)")

/-- The per-player check of `StorageService.validateState`:
`!player.id || !player.name || typeof player.position !== 'number'` read off
the spread `{...player}`. -/
def validPlayerRaw (p : MappedRawPlayer) : Bool :=
  jtruthy (jget p.orig "id") && jtruthy (jget p.orig "name")
    && isNumberV (jget p.orig "position")

/-- `StorageService.validateState`.  An `error` result is a thrown
`CorruptedStateError` carrying the given reason.  The checks on
`state.players` being an array and on the two dates being `Date` instances
hold by construction here (`deserializeStateRaw` rebuilt them as a list and as
date values), so of those checks only the `isNaN(getTime())` parts remain. -/
def validateState (state : DeserializedRaw) : Except String Unit :=
  if !(jtruthy (jget state.orig "gameId") && isStringV (jget state.orig "gameId")) then
    .error "Missing or invalid gameId"
  else if !isArrayV (jget state.orig "snakesAndLadders") then
    .error "Missing or invalid snakesAndLadders array"
  else if !isBoolV (jget state.orig "isGameStarted") then
    .error "Missing or invalid isGameStarted"
  else if !isBoolV (jget state.orig "isGameFinished") then
    .error "Missing or invalid isGameFinished"
  else if state.createdAt = none then
    .error "Invalid createdAt date"
  else if state.lastUpdatedAt = none then
    .error "Invalid lastUpdatedAt date"
  else match state.players.find? (fun p => !validPlayerRaw p) with
    | some _ => .error "Invalid player data"
    | none => .ok ()

/-- The outcome of `StorageService.loadGameState`: `null` for an absent
record, a deserialized state, or a thrown `CorruptedStateError`. -/
inductive LoadResult where
  | noSavedState
  | loaded (state : DeserializedRaw)
  | corruptedState (reason : String)

/-- `StorageService.loadGameState`, together with its effect on the stored
record.  The store is the parsed stored record (`none` = no record; the claims
in scope concern records that parse, so `JSON.parse` failures are out of
frame).  Control flow mirrored from the source: an absent record returns
`null`; a `CorruptedStateError` thrown by `validateState` is re-thrown as is
(the record is NOT cleared on that path); any other error (here the
`TypeError` from deserialization) clears the record and is wrapped in a fresh
`CorruptedStateError`. -/
def loadGameState (store : Option JsonValue) :
    LoadResult × Option JsonValue :=
  match store with
  | none => (.noSavedState, none)
  | some savedState =>
    match deserializeStateRaw savedState with
    | .error (.typeError msg) =>
      -- catch: not a CorruptedStateError → clearGameState(); throw new CorruptedStateError
      (.corruptedState msg, none)
    | .ok deserialized =>
      match validateState deserialized with
      | .error reason =>
        -- catch: error instanceof CorruptedStateError → rethrow, record kept
        (.corruptedState reason, some savedState)
      | .ok _ => (.loaded deserialized, some savedState)

/-! ## Hazard factories and random hazard generation -/

/-- `validateSnake` (snake-or-ladder.model.ts): the head must be strictly
above the tail. -/
def validateSnake (startPosition endPosition : Int) : Except GameError Unit :=
  if startPosition ≤ endPosition then .error .invalidSnake else .ok ()

/-- `validateLadder` (snake-or-ladder.model.ts): the bottom must be strictly
below the top. -/
def validateLadder (startPosition endPosition : Int) : Except GameError Unit :=
  if startPosition ≥ endPosition then .error .invalidLadder else .ok ()

/-- `checkDuplicateStartPosition` (snake-or-ladder.model.ts). -/
def checkDuplicateStartPosition (startPosition : Int)
    (existingElements : List SnakeOrLadder) : Except GameError Unit :=
  if existingElements.any (fun element => element.startPosition == startPosition) then
    .error .duplicateStartPosition
  else .ok ()

/-- `createSnake` (snake-or-ladder.model.ts); `uuidv4()` passed as `id`. -/
def createSnake (id : String) (startPosition endPosition : Int)
    (existingElements : List SnakeOrLadder) : Except GameError SnakeOrLadder :=
  match validateSnake startPosition endPosition with
  | .error e => .error e
  | .ok _ =>
    match checkDuplicateStartPosition startPosition existingElements with
    | .error e => .error e
    | .ok _ => .ok { id := id, kind := .snake
                     startPosition := startPosition, endPosition := endPosition }

/-- `createLadder` (snake-or-ladder.model.ts); `uuidv4()` passed as `id`. -/
def createLadder (id : String) (startPosition endPosition : Int)
    (existingElements : List SnakeOrLadder) : Except GameError SnakeOrLadder :=
  match validateLadder startPosition endPosition with
  | .error e => .error e
  | .ok _ =>
    match checkDuplicateStartPosition startPosition existingElements with
    | .error e => .error e
    | .ok _ => .ok { id := id, kind := .ladder
                     startPosition := startPosition, endPosition := endPosition }

/-- `SnakesAndLaddersConfig` (board-layout.util.ts) with its defaults already
substituted (`count = 14`, `minDistance = 10`, `maxDistance = 40`). -/
structure SnakesAndLaddersConfig where
  count : Int := 14
  minDistance : Int := 10
  maxDistance : Int := 40
  deriving DecidableEq, Repr

/-- `getRandomInt(min, max)` = `Math.floor(Math.random() * (max - min + 1)) + min`,
with the `Math.random()` draw `u ∈ [0,1)` passed explicitly (faithful also when
`max < min`, where the JS expression produces out-of-range values). -/
def getRandomInt (u : ℚ) (lo hi : Int) : Int :=
  ⌊u * ((hi : ℚ) - lo + 1)⌋ + lo

/-- The state threaded through `generateSnakesAndLadders`: accepted elements,
the `usedEndPositions` set (as a list), and the index of the next unconsumed
`Math.random()` draw from the ambient draw sequence. -/
structure GenState where
  elements : List SnakeOrLadder
  usedEndPositions : List Int
  drawIdx : ℕ

/-- The body of one snake slot's `while (attempts < maxAttempts)` retry loop
(board-layout.util.ts, snakes half).  `rand` is the `Math.random()` draw
sequence, `fuel` the remaining attempts.  On acceptance the snake is pushed
and its tail recorded in `usedEndPositions`. -/
def snakeAttemptLoop (rand : ℕ → ℚ) (minDistance maxDistance : Int) :
    ℕ → GenState → GenState
  | 0, g => g
  | fuel + 1, g =>
    -- Snake head should be in upper portion of board
    let head := getRandomInt (rand g.drawIdx) (2 + minDistance) 99
    if g.usedEndPositions.contains head then
      snakeAttemptLoop rand minDistance maxDistance fuel { g with drawIdx := g.drawIdx + 1 }
    else
      let distance := getRandomInt (rand (g.drawIdx + 1)) minDistance
        (min maxDistance (head - 2))
      let tail := head - distance
      if tail < 2 ∨ g.usedEndPositions.contains tail then
        snakeAttemptLoop rand minDistance maxDistance fuel { g with drawIdx := g.drawIdx + 2 }
      else
        match createSnake (toString g.drawIdx) head tail g.elements with
        | .ok snake =>
          { elements := g.elements ++ [snake]
            usedEndPositions := g.usedEndPositions ++ [tail]
            drawIdx := g.drawIdx + 2 }
        | .error _ =>
          snakeAttemptLoop rand minDistance maxDistance fuel { g with drawIdx := g.drawIdx + 2 }

/-- The body of one ladder slot's retry loop (board-layout.util.ts, ladders
half). -/
def ladderAttemptLoop (rand : ℕ → ℚ) (minDistance maxDistance : Int) :
    ℕ → GenState → GenState
  | 0, g => g
  | fuel + 1, g =>
    -- Ladder bottom should be in lower portion of board
    let bottom := getRandomInt (rand g.drawIdx) 2 (99 - minDistance)
    if g.usedEndPositions.contains bottom then
      ladderAttemptLoop rand minDistance maxDistance fuel { g with drawIdx := g.drawIdx + 1 }
    else
      let distance := getRandomInt (rand (g.drawIdx + 1)) minDistance
        (min maxDistance (99 - bottom))
      let top := bottom + distance
      if top > 99 ∨ g.usedEndPositions.contains top then
        ladderAttemptLoop rand minDistance maxDistance fuel { g with drawIdx := g.drawIdx + 2 }
      else
        match createLadder (toString g.drawIdx) bottom top g.elements with
        | .ok ladder =>
          { elements := g.elements ++ [ladder]
            usedEndPositions := g.usedEndPositions ++ [top]
            drawIdx := g.drawIdx + 2 }
        | .error _ =>
          ladderAttemptLoop rand minDistance maxDistance fuel { g with drawIdx := g.drawIdx + 2 }

/-- The `for (let i = 0; i < numSnakes; i++)` loop: each slot runs its retry
loop with `maxAttempts = 100`. -/
def snakeSlots (rand : ℕ → ℚ) (minDistance maxDistance : Int) :
    ℕ → GenState → GenState
  | 0, g => g
  | n + 1, g =>
    snakeSlots rand minDistance maxDistance n
      (snakeAttemptLoop rand minDistance maxDistance 100 g)

/-- The `for (let i = 0; i < numLadders; i++)` loop. -/
def ladderSlots (rand : ℕ → ℚ) (minDistance maxDistance : Int) :
    ℕ → GenState → GenState
  | 0, g => g
  | n + 1, g =>
    ladderSlots rand minDistance maxDistance n
      (ladderAttemptLoop rand minDistance maxDistance 100 g)

/-- `generateSnakesAndLadders` (board-layout.util.ts).  `rand` is the sequence
of `Math.random()` draws, consumed in program order.  `numSnakes =
floor(count / 2)` and `numLadders = count - numSnakes` (`Int.toNat` clamps a
negative count to zero slots, matching the JS `for` loops not running). -/
def generateSnakesAndLadders (rand : ℕ → ℚ)
    (config : SnakesAndLaddersConfig := {}) : List SnakeOrLadder :=
  let numSnakes := (config.count / 2).toNat
  let numLadders := (config.count - config.count / 2).toNat
  let afterSnakes := snakeSlots rand config.minDistance config.maxDistance numSnakes
    { elements := [], usedEndPositions := [], drawIdx := 0 }
  (ladderSlots rand config.minDistance config.maxDistance numLadders afterSnakes).elements

/-- The position of the (first) player with the given id, as the claims speak
of "p.position" after an operation. -/
def playerPosition (s : GameState) (playerId : String) : Option Int :=
  (s.players.find? (fun p => p.id == playerId)).map (·.position)

/-! ## Example fixtures used by counterexamples and witnesses -/

/-- A minimal player fixture. -/
def mkPlayer (id : String) (turnOrder : Int) (position : Int) (isFinished : Bool) : Player :=
  { id := id, name := id, color := "hsl(0, 70%, 50%)", teamId := none, teamColor := none,
    position := position, isFinished := isFinished, finishTime := none, turnOrder := turnOrder }

/-- A minimal initialized-game fixture around a given player list. -/
def mkState (players : List Player) (rollerId : String) (turnsInCurrentRound : Int) : GameState :=
  { gameId := "game-1", players := players, teams := [], snakesAndLadders := [],
    mapType := .randomMap, currentDiceRollerId := rollerId, selectedTargetId := none,
    lastDiceResult := none, diceConfig := { maxPoints := 12, pendingMaxPoints := none },
    currentRound := 1, turnsInCurrentRound := turnsInCurrentRound, isGameStarted := true,
    isGameFinished := false, showTokenForPlayerId := none, winningPositions := [16],
    createdAt := 0, lastUpdatedAt := 0 }

/-! ## Helper lemmas -/

/-- Setting an index of a list to the value already there is the identity. -/
theorem list_set_get?_self {α : Type _} : ∀ (l : List α) (i : ℕ) (x : α),
    l[i]? = some x → l.set i x = l := by
  intro l
  induction l with
  | nil => intro i x h; simp at h
  | cons a l ih =>
    intro i x h
    cases i with
    | zero => simp at h; simp [h]
    | succ j => simp at h; simp [ih j x h]

/-- `find?` returns the element that `findIdx?` points at. -/
theorem list_find?_of_findIdx? {α : Type _} (p : α → Bool) : ∀ (l : List α) (i : ℕ) (x : α),
    l.findIdx? p = some i → l[i]? = some x → l.find? p = some x := by
  intro l
  induction l with
  | nil => intro i x h; simp at h
  | cons a l ih =>
    intro i x h hget
    rw [List.findIdx?_cons] at h
    by_cases hpa : p a
    · simp [hpa] at h
      subst h
      simp at hget
      subst hget
      simp [List.find?, hpa]
    · simp [hpa] at h
      obtain ⟨j, hj, rfl⟩ := h
      simp at hget
      simp [List.find?, hpa]
      exact ih j x hj hget

/-- The element seen by `findIdx?` satisfies the predicate. -/
theorem list_findIdx?_pred {α : Type _} (p : α → Bool) : ∀ (l : List α) (i : ℕ) (x : α),
    l.findIdx? p = some i → l[i]? = some x → p x = true := by
  intro l
  induction l with
  | nil => intro i x h; simp at h
  | cons a l ih =>
    intro i x h hget
    rw [List.findIdx?_cons] at h
    by_cases hpa : p a
    · simp [hpa] at h; subst h; simp at hget; rw [← hget]; exact hpa
    · simp [hpa] at h
      obtain ⟨j, hj, rfl⟩ := h
      simp at hget
      exact ih j x hj hget

/-- `findIdx?` is unchanged by overwriting its index with another match. -/
theorem list_findIdx?_set {α : Type _} (p : α → Bool) : ∀ (l : List α) (i : ℕ) (x : α),
    l.findIdx? p = some i → p x = true → (l.set i x).findIdx? p = some i := by
  intro l
  induction l with
  | nil => intro i x h; simp at h
  | cons a l ih =>
    intro i x h hpx
    rw [List.findIdx?_cons] at h
    by_cases hpa : p a
    · simp [hpa] at h
      subst h
      simp [List.set, List.findIdx?_cons, hpx]
    · simp [hpa] at h
      obtain ⟨j, hj, rfl⟩ := h
      simp [List.set, List.findIdx?_cons, hpa, ih j x hj hpx]

/-- Mapping a function that is the identity on every element is the identity. -/
theorem list_map_id_of_eq {α : Type _} (f : α → α) (h : ∀ a, f a = a) :
    ∀ l : List α, l.map f = l := by
  intro l
  induction l with
  | nil => rfl
  | cons a l ih => simp [h a, ih]

/-! ## Claim C2: the overshoot law of movePlayer -/

/-- C2 counterexample. The claim asserts that for EVERY `steps` value with
`p.position + steps ≤ 100`, `movePlayer` sets the position to the sum.  For a
player at position 0 and `steps = -1` the sum is `-1 ≤ 100`, yet the code
throws `InvalidPositionError` from `validatePosition` instead of storing
`-1`. -/
theorem movePlayer_negative_steps_counterexample :
    ((0 : Int) + (-1) ≤ 100) ∧
    movePlayer "a" (-1) 5 (mkState [mkPlayer "a" 0 0 false, mkPlayer "b" 1 0 false] "a" 0)
      = .error .invalidPosition := by
  constructor
  · decide
  · rfl

/-- C2 (amended): for a player `p` present in the state (at index `i`) with a
position in `[0,100]`: an overshooting roll (`p.position + steps > 100`)
leaves the state unchanged apart from the `lastUpdatedAt` stamp; a roll whose
sum stays in `[0,100]` stores exactly `p.position + steps`; a roll whose sum
is negative (possible only for `steps < 0`) throws `InvalidPositionError`
instead of moving; and for `steps ≥ 0` the operation always succeeds with the
player's resulting position in `[0,100]`. -/
theorem movePlayer_overshoot_law (s : GameState) (pid : String) (steps now : Int)
    (i : ℕ) (p : Player)
    (hidx : s.players.findIdx? (fun q => q.id == pid) = some i)
    (hget : s.players[i]? = some p)
    (hlo : 0 ≤ p.position) (hhi : p.position ≤ 100) :
    (p.position + steps > 100 →
      movePlayer pid steps now s = .ok { s with lastUpdatedAt := now }) ∧
    (0 ≤ p.position + steps → p.position + steps ≤ 100 →
      movePlayer pid steps now s =
        .ok { s with
              players := s.players.set i { p with position := p.position + steps }
              lastUpdatedAt := now }) ∧
    (p.position + steps < 0 →
      movePlayer pid steps now s = .error .invalidPosition) ∧
    (0 ≤ steps →
      ∃ s' v, movePlayer pid steps now s = .ok s' ∧
        playerPosition s' pid = some v ∧ 0 ≤ v ∧ v ≤ 100) := by
  have hset : s.players.set i p = s.players := list_set_get?_self s.players i p hget
  refine ⟨?_, ?_, ?_, ?_⟩
  · intro hover
    simp only [movePlayer, hidx, hget]
    have hcond : p.position + steps > 100 := hover
    simp only [if_pos hcond, validatePosition]
    have : ¬(p.position < 0 ∨ p.position > 100) := by omega
    simp only [if_neg this]
    have : ({ p with position := p.position } : Player) = p := rfl
    rw [this, hset]
  · intro h0 h100
    simp only [movePlayer, hidx, hget]
    have hcond : ¬(p.position + steps > 100) := by omega
    simp only [if_neg hcond, validatePosition]
    have : ¬(p.position + steps < 0 ∨ p.position + steps > 100) := by omega
    simp only [if_neg this]
  · intro hneg
    simp only [movePlayer, hidx, hget]
    have hcond : ¬(p.position + steps > 100) := by omega
    simp only [if_neg hcond, validatePosition]
    have : p.position + steps < 0 ∨ p.position + steps > 100 := by omega
    simp only [if_pos this]
  · intro hsteps
    by_cases hover : p.position + steps > 100
    · refine ⟨{ s with lastUpdatedAt := now }, p.position, ?_, ?_, hlo, hhi⟩
      · simp only [movePlayer, hidx, hget]
        simp only [if_pos hover, validatePosition]
        have : ¬(p.position < 0 ∨ p.position > 100) := by omega
        simp only [if_neg this]
        have : ({ p with position := p.position } : Player) = p := rfl
        rw [this, hset]
      · have hid : (fun q => q.id == pid) p = true :=
          list_findIdx?_pred _ s.players i p hidx hget
        simp only [playerPosition, list_find?_of_findIdx? _ s.players i p hidx hget,
          Option.map_some']
    · refine ⟨{ s with
          players := s.players.set i { p with position := p.position + steps }
          lastUpdatedAt := now }, p.position + steps, ?_, ?_, by omega, by omega⟩
      · simp only [movePlayer, hidx, hget]
        simp only [if_neg hover, validatePosition]
        have : ¬(p.position + steps < 0 ∨ p.position + steps > 100) := by omega
        simp only [if_neg this]
      · have hid : (fun q => q.id == pid) p = true :=
          list_findIdx?_pred _ s.players i p hidx hget
        have hidx' : (s.players.set i { p with position := p.position + steps }).findIdx?
            (fun q => q.id == pid) = some i :=
          list_findIdx?_set _ s.players i _ hidx (by simpa using hid)
        have hlen : i < s.players.length := (List.findIdx?_eq_some_iff_findIdx_eq.mp hidx).1
        have hget' : (s.players.set i { p with position := p.position + steps })[i]? =
            some { p with position := p.position + steps } :=
          List.getElem?_set_self hlen
        simp only [playerPosition,
          list_find?_of_findIdx? _ _ i _ hidx' hget', Option.map_some']

/-- C2 witness: the amended theorem applied to a two-player state with the
mover at position 95 and `steps = 10` (the overshoot branch). -/
theorem movePlayer_overshoot_law_witness :
    movePlayer "a" 10 7 (mkState [mkPlayer "a" 0 95 false, mkPlayer "b" 1 0 false] "a" 0)
      = .ok { mkState [mkPlayer "a" 0 95 false, mkPlayer "b" 1 0 false] "a" 0 with
              lastUpdatedAt := 7 } :=
  (movePlayer_overshoot_law
    (mkState [mkPlayer "a" 0 95 false, mkPlayer "b" 1 0 false] "a" 0)
    "a" 10 7 0 (mkPlayer "a" 0 95 false) (by decide) (by decide)
    (by decide) (by decide)).1 (by decide)

/-! ## Claim C3: win condition and markPlayerFinished -/

/-- C3: `checkWinCondition` is true iff the player's position is exactly 100,
and `markPlayerFinished` throws for any other position, setting `isFinished`
and stamping `finishTime` only in the `position = 100` case. -/
theorem checkWin_markFinished_law (s : GameState) (pid : String) (now : Int)
    (i : ℕ) (p : Player)
    (hidx : s.players.findIdx? (fun q => q.id == pid) = some i)
    (hget : s.players[i]? = some p) :
    (checkWinCondition s pid = true ↔ p.position = 100) ∧
    (p.position ≠ 100 → markPlayerFinished pid now s = .error .playerNotAtHundred) ∧
    (p.position = 100 → markPlayerFinished pid now s =
      .ok { s with
            players := s.players.set i { p with isFinished := true, finishTime := some now }
            lastUpdatedAt := now }) := by
  have hfind : s.players.find? (fun q => q.id == pid) = some p :=
    list_find?_of_findIdx? _ s.players i p hidx hget
  refine ⟨?_, ?_, ?_⟩
  · simp [checkWinCondition, hfind]
  · intro hne
    simp only [markPlayerFinished, hidx, hget]
    simp [hne]
  · intro heq
    simp only [markPlayerFinished, hidx, hget]
    simp [heq]

/-- Fixture for the C3 witness: player a at position 100. -/
def exWinState : GameState :=
  mkState [mkPlayer "a" 0 100 false, mkPlayer "b" 1 3 false] "a" 0

/-- C3 witness: a player at position 100 in a concrete two-player state —
the win check holds and marking the player finished succeeds with the
finish time stamped. -/
theorem checkWin_markFinished_law_witness :
    (checkWinCondition exWinState "a" = true ↔ (mkPlayer "a" 0 100 false).position = 100) ∧
    markPlayerFinished "a" 9 exWinState
      = .ok { exWinState with
              players := exWinState.players.set 0
                { mkPlayer "a" 0 100 false with isFinished := true, finishTime := some 9 }
              lastUpdatedAt := 9 } :=
  ⟨(checkWin_markFinished_law exWinState
      "a" 9 0 (mkPlayer "a" 0 100 false) (by decide) (by decide)).1,
   (checkWin_markFinished_law exWinState
      "a" 9 0 (mkPlayer "a" 0 100 false) (by decide) (by decide)).2.2 (by decide)⟩

/-! ## Claim C10: nextTurn when every player is finished -/

/-- C10: when every player is finished, `nextTurn` succeeds and changes only
the `lastUpdatedAt` stamp (no rotation, no round/turn counters, no clearing of
selection or dice result, no pending-config application). -/
theorem nextTurn_allFinished_frame (s : GameState) (now : Int)
    (h : ∀ p ∈ s.players, p.isFinished = true) :
    nextTurn now s = { s with lastUpdatedAt := now } := by
  have hactive : activePlayers s = [] := by
    simp only [activePlayers, List.filter_eq_nil_iff]
    intro p hp
    simp [h p hp]
  simp [nextTurn, hactive]

/-- C10 witness: a concrete two-player state with both players finished. -/
theorem nextTurn_allFinished_frame_witness :
    nextTurn 11 (mkState [mkPlayer "a" 0 100 true, mkPlayer "b" 1 100 true] "a" 3)
      = { mkState [mkPlayer "a" 0 100 true, mkPlayer "b" 1 100 true] "a" 3 with
          lastUpdatedAt := 11 } :=
  nextTurn_allFinished_frame
    (mkState [mkPlayer "a" 0 100 true, mkPlayer "b" 1 100 true] "a" 3) 11 (by decide)

/-! ## Claim C7: the persistence codec round-trips -/

/-- C7: the codec round-trips in both directions — deserializing a serialized
state recovers every field (dates included) exactly, and serializing a
deserialized record reproduces the record. -/
theorem serialize_deserialize_roundTrip :
    (∀ x : GameState, deserializeState (serializeState x) = x) ∧
    (∀ y : SerializedGameState, serializeState (deserializeState y) = y) := by
  constructor
  · intro x
    cases x with
    | mk gameId players teams snakesAndLadders mapType currentDiceRollerId selectedTargetId
        lastDiceResult diceConfig currentRound turnsInCurrentRound isGameStarted
        isGameFinished showTokenForPlayerId winningPositions createdAt lastUpdatedAt =>
      simp only [serializeState, deserializeState, List.map_map]
      congr 1
      apply list_map_id_of_eq
      intro p
      cases p with
      | mk id name color teamId teamColor position isFinished finishTime turnOrder =>
        cases finishTime <;> rfl
  · intro y
    cases y with
    | mk gameId players teams snakesAndLadders mapType currentDiceRollerId selectedTargetId
        lastDiceResult diceConfig currentRound turnsInCurrentRound isGameStarted
        isGameFinished showTokenForPlayerId winningPositions createdAt lastUpdatedAt =>
      simp only [serializeState, deserializeState, List.map_map]
      congr 1
      apply list_map_id_of_eq
      intro p
      cases p with
      | mk id name color teamId teamColor position isFinished finishTime turnOrder =>
        cases finishTime <;> rfl

/-! ## Claim C6: winningPositions at initialization -/

/-- C6 counterexample. The claim asserts the initialized `winningPositions`
list "contains no duplicate entries", but `createInitialGameState` never
deduplicates: the input `[5, 5]` yields `[5, 5, 16]`, which has a duplicate. -/
theorem initialState_winningPositions_counterexample :
    (createInitialGameState "g" 0 [mkPlayer "a" 0 0 false, mkPlayer "b" 1 0 false]
        [] [] [5, 5] .randomMap).map (fun st => st.winningPositions) = .ok [5, 5, 16] ∧
    ¬ ([5, 5, 16] : List Int).Nodup := by
  constructor
  · simp [createInitialGameState, validatePlayerCount, List.mergeSort, Except.map]
  · decide

/-- Projection used to state the initialization law without an existential:
the winning positions of a successful initialization (empty on failure). -/
def winningPositionsOf (r : Except GameError GameState) : List Int :=
  match r with
  | .ok st => st.winningPositions
  | .error _ => []

/-- C6 (amended): for at least two players, initialization succeeds and the
resulting `winningPositions` contains 16 and is sorted ascending, but input
duplicates are preserved (the result is a permutation of the input, with 16
prepended when absent — no deduplication); initialization fails with
`InvalidPlayerCountError` for fewer than two players. -/
theorem initialState_winningPositions (gameId : String) (now : Int)
    (players : List Player) (snakes : List SnakeOrLadder) (teams : List Team)
    (wps : List Int) (mapType : MapType) :
    (2 ≤ players.length →
      (createInitialGameState gameId now players snakes teams wps mapType).isOk = true ∧
      16 ∈ winningPositionsOf (createInitialGameState gameId now players snakes teams wps mapType) ∧
      (winningPositionsOf
          (createInitialGameState gameId now players snakes teams wps mapType)).Pairwise
        (fun a b : Int => a ≤ b) ∧
      (winningPositionsOf
          (createInitialGameState gameId now players snakes teams wps mapType)).Perm
        (if 16 ∈ wps then wps else 16 :: wps)) ∧
    (players.length < 2 →
      createInitialGameState gameId now players snakes teams wps mapType =
        .error .invalidPlayerCount) := by
  constructor
  · intro hcount
    have hnotlt : ¬((players.length : Int) < 2) := by exact_mod_cast not_lt.mpr hcount
    have hok : createInitialGameState gameId now players snakes teams wps mapType =
        .ok { gameId := gameId, players := players, teams := teams,
              snakesAndLadders := snakes, mapType := mapType,
              currentDiceRollerId := ((players.head?).map (·.id)).getD "",
              selectedTargetId := none, lastDiceResult := none,
              diceConfig := { maxPoints := 12, pendingMaxPoints := none },
              currentRound := 1, turnsInCurrentRound := 0, isGameStarted := false,
              isGameFinished := false, showTokenForPlayerId := none,
              winningPositions :=
                (if 16 ∈ wps then wps else 16 :: wps).mergeSort (fun a b => a ≤ b),
              createdAt := now, lastUpdatedAt := now } := by
      simp only [createInitialGameState, validatePlayerCount, if_neg hnotlt]
      rfl
    rw [hok]
    refine ⟨rfl, ?_, ?_, ?_⟩
    · rw [winningPositionsOf, List.mem_mergeSort]
      by_cases h16 : 16 ∈ wps <;> simp [h16]
    · rw [winningPositionsOf]
      have hp := @List.sorted_mergeSort Int (fun a b : Int => a ≤ b)
        (fun a b c hab hbc => by
          simp only [decide_eq_true_eq] at *; omega)
        (fun a b => by
          simp only [Bool.or_eq_true, decide_eq_true_eq]; omega)
        (if 16 ∈ wps then wps else 16 :: wps)
      refine List.Pairwise.imp ?_ hp
      intro a b hab
      simpa using hab
    · rw [winningPositionsOf]
      exact List.mergeSort_perm _ _
  · intro hcount
    have hlt : (players.length : Int) < 2 := by exact_mod_cast hcount
    simp only [createInitialGameState, validatePlayerCount, if_pos hlt]
    rfl

/-- C6 witness: the amended theorem at a concrete two-player game with input
winning positions `[20, 5]` (16 absent), and at a one-player list for the
failure branch. -/
theorem initialState_winningPositions_witness :
    ((createInitialGameState "g" 0 [mkPlayer "a" 0 0 false, mkPlayer "b" 1 0 false]
        [] [] [20, 5] .randomMap).isOk = true ∧
      16 ∈ winningPositionsOf (createInitialGameState "g" 0
        [mkPlayer "a" 0 0 false, mkPlayer "b" 1 0 false] [] [] [20, 5] .randomMap) ∧
      (winningPositionsOf (createInitialGameState "g" 0
          [mkPlayer "a" 0 0 false, mkPlayer "b" 1 0 false] [] [] [20, 5] .randomMap)).Pairwise
        (fun a b : Int => a ≤ b) ∧
      (winningPositionsOf (createInitialGameState "g" 0
          [mkPlayer "a" 0 0 false, mkPlayer "b" 1 0 false] [] [] [20, 5] .randomMap)).Perm
        (if 16 ∈ ([20, 5] : List Int) then [20, 5] else 16 :: [20, 5])) ∧
    (createInitialGameState "g" 0 [mkPlayer "a" 0 0 false] [] [] [20, 5] .randomMap =
      .error .invalidPlayerCount) :=
  ⟨(initialState_winningPositions "g" 0 [mkPlayer "a" 0 0 false, mkPlayer "b" 1 0 false]
      [] [] [20, 5] .randomMap).1 (by decide),
   (initialState_winningPositions "g" 0 [mkPlayer "a" 0 0 false]
      [] [] [20, 5] .randomMap).2 (by decide)⟩

/-! ## Claim C5: dice-configuration staging -/

/-- C5: `updateDiceConfigPending` only stages the new bound (leaving
`maxPoints`, and hence `rollDice`'s outcome for every draw, unchanged);
`nextTurn` applies a pending bound exactly when it crosses a round boundary
(`turnsInCurrentRound + 1` reaching the active-player count) and leaves the
dice configuration untouched otherwise; and both update operations reject
non-integer or `< 1` bounds without changing the state. -/
theorem diceConfig_staging :
    (∀ (s : GameState) (v : ℚ) (now : Int), v.den = 1 → 1 ≤ v →
      updateDiceConfigPending v now s =
        .ok { s with
              diceConfig := { s.diceConfig with pendingMaxPoints := some v.num }
              lastUpdatedAt := now }) ∧
    (∀ (s s' : GameState) (v : ℚ) (now : Int),
      updateDiceConfigPending v now s = .ok s' →
      s'.diceConfig.maxPoints = s.diceConfig.maxPoints ∧
      ∀ u : ℚ, rollDice u s' = rollDice u s) ∧
    (∀ (s : GameState) (v : ℚ) (now : Int), v.den ≠ 1 ∨ v < 1 →
      updateDiceConfigPending v now s = .error .invalidMaxPoints ∧
      updateDiceConfig v now s = .error .invalidMaxPoints) ∧
    (∀ (s : GameState) (now : Int), 0 < (activePlayers s).length →
      s.turnsInCurrentRound + 1 < ((activePlayers s).length : Int) →
      (nextTurn now s).diceConfig = s.diceConfig) ∧
    (∀ (s : GameState) (now : Int) (v : Int), 0 < (activePlayers s).length →
      ((activePlayers s).length : Int) ≤ s.turnsInCurrentRound + 1 →
      s.diceConfig.pendingMaxPoints = some v →
      (nextTurn now s).diceConfig = { maxPoints := v, pendingMaxPoints := none }) := by
  refine ⟨?_, ?_, ?_, ?_, ?_⟩
  · intro s v now hden hge
    have hv : validateMaxPoints v = true := by
      simp [validateMaxPoints, hden, hge]
    simp [updateDiceConfigPending, hv]
  · intro s s' v now h
    simp only [updateDiceConfigPending] at h
    by_cases hv : validateMaxPoints v = true
    · rw [if_neg (by simp [hv])] at h
      cases h
      exact ⟨rfl, fun u => rfl⟩
    · rw [if_pos (by simp [Bool.not_eq_true] at hv; simp [hv])] at h
      exact (Except.noConfusion h)
  · intro s v now hbad
    have hv : validateMaxPoints v = false := by
      rcases hbad with hden | hlt
      · simp [validateMaxPoints, hden]
      · simp [validateMaxPoints, not_le.mpr hlt]
    constructor
    · simp [updateDiceConfigPending, hv]
    · simp [updateDiceConfig, hv]
  · intro s now hpos hlt
    have hne : ¬((activePlayers s).length = 0) := by omega
    simp only [nextTurn, if_neg hne]
    rw [if_neg (by omega)]
  · intro s now v hpos hge hpending
    have hne : ¬((activePlayers s).length = 0) := by omega
    simp only [nextTurn, if_neg hne]
    rw [if_pos (by omega), hpending]

/-- Fixtures for the C5 witness. -/
def exS2 : GameState := mkState [mkPlayer "a" 0 0 false, mkPlayer "b" 1 0 false] "a" 0

/-- Three-player fixture (mid-round `nextTurn` does not cross a boundary). -/
def exS3 : GameState :=
  mkState [mkPlayer "a" 0 0 false, mkPlayer "b" 1 0 false, mkPlayer "c" 2 0 false] "a" 0

/-- Two-player fixture one turn before the round boundary, with a staged bound. -/
def exS2Pending : GameState :=
  { exS2 with turnsInCurrentRound := 1,
              diceConfig := { maxPoints := 12, pendingMaxPoints := some 20 } }

/-- C5 witness: the five parts of the staging law applied to concrete states —
staging 20 on a fresh two-player state, the staged state's unchanged roll
behavior, rejecting the invalid bound 0, a mid-round `nextTurn` on a
three-player state, and a boundary `nextTurn` with pending bound 20. -/
theorem diceConfig_staging_witness :
    (updateDiceConfigPending 20 4 exS2
      = .ok { exS2 with
              diceConfig := { exS2.diceConfig with pendingMaxPoints := some (20 : ℚ).num }
              lastUpdatedAt := 4 }) ∧
    ({ exS2 with
       diceConfig := { exS2.diceConfig with pendingMaxPoints := some (20 : ℚ).num }
       lastUpdatedAt := 4 }.diceConfig.maxPoints = exS2.diceConfig.maxPoints ∧
      ∀ u : ℚ, rollDice u { exS2 with
        diceConfig := { exS2.diceConfig with pendingMaxPoints := some (20 : ℚ).num }
        lastUpdatedAt := 4 } = rollDice u exS2) ∧
    (updateDiceConfigPending 0 4 exS2 = .error .invalidMaxPoints ∧
      updateDiceConfig 0 4 exS2 = .error .invalidMaxPoints) ∧
    ((nextTurn 4 exS3).diceConfig = exS3.diceConfig) ∧
    ((nextTurn 4 exS2Pending).diceConfig = { maxPoints := 20, pendingMaxPoints := none }) :=
  ⟨diceConfig_staging.1 exS2 20 4 (by decide) (by decide),
   diceConfig_staging.2.1 exS2 _ 20 4 (by rfl),
   diceConfig_staging.2.2.1 exS2 0 4 (Or.inr (by decide)),
   diceConfig_staging.2.2.2.1 exS3 4 (by decide) (by decide),
   diceConfig_staging.2.2.2.2 exS2Pending 4 20 (by decide) (by decide) (by decide)⟩

/-! ## Machinery for the turn-rotation claims (C1 and C4) -/

/-- `nextTurn` applied for each timestamp in a list, in order ("calling
`nextTurn` n times"). -/
def nextTurnN (nows : List Int) (s : GameState) : GameState :=
  nows.foldl (fun st t => nextTurn t st) s

/-- The sorted active list is a permutation of the active list. -/
theorem sortedActive_perm (s : GameState) :
    (sortedActivePlayers s).Perm (activePlayers s) :=
  List.mergeSort_perm _ _

/-- The sorted active list has the same length as the active list. -/
theorem sortedActive_length (s : GameState) :
    (sortedActivePlayers s).length = (activePlayers s).length :=
  (sortedActive_perm s).length_eq

/-- The sorted active list is sorted by `turnOrder`. -/
theorem sortedActive_pairwise (s : GameState) :
    (sortedActivePlayers s).Pairwise (fun a b => a.turnOrder ≤ b.turnOrder) := by
  have hp := @List.sorted_mergeSort Player (fun a b : Player => a.turnOrder ≤ b.turnOrder)
    (fun a b c hab hbc => by simp only [decide_eq_true_eq] at *; omega)
    (fun a b => by simp only [Bool.or_eq_true, decide_eq_true_eq]; omega)
    (activePlayers s)
  exact List.Pairwise.imp (fun h => by simpa using h) hp

/-- Distinctness of a mapped key survives filtering and sorting. -/
theorem sortedActive_key_nodup {β : Type _} (s : GameState) (f : Player → β)
    (h : (s.players.map f).Nodup) : ((sortedActivePlayers s).map f).Nodup := by
  have hsub : (activePlayers s).Sublist s.players := List.filter_sublist _
  have hactive : ((activePlayers s).map f).Nodup := (hsub.map f).nodup h
  exact ((sortedActive_perm s).map f).nodup_iff.mpr hactive

/-- States with the same player list have the same sorted active list. -/
theorem sortedActive_congr {s₁ s₂ : GameState} (h : s₁.players = s₂.players) :
    sortedActivePlayers s₁ = sortedActivePlayers s₂ := by
  simp [sortedActivePlayers, activePlayers, h]

/-- In a list whose mapped keys are distinct, searching for the key of the
element at index `j` finds exactly index `j`. -/
theorem list_findIdx?_key_at {α β : Type _} [BEq β] [LawfulBEq β] (f : α → β) :
    ∀ (l : List α) (j : ℕ) (x : α), (l.map f).Nodup → l[j]? = some x →
      l.findIdx? (fun y => f y == f x) = some j := by
  intro l
  induction l with
  | nil => intro j x _ h; simp at h
  | cons a l ih =>
    intro j x hnd hget
    simp only [List.map_cons, List.nodup_cons, List.mem_map] at hnd
    cases j with
    | zero =>
      simp only [List.getElem?_cons_zero, Option.some.injEq] at hget
      subst hget
      simp [List.findIdx?_cons]
    | succ k =>
      simp only [List.getElem?_cons_succ] at hget
      have hxmem : x ∈ l := List.getElem?_mem hget
      have hne : ¬(f a == f x) = true := by
        simp only [beq_iff_eq]
        intro heq
        exact hnd.1 ⟨x, hxmem, heq.symm⟩
      rw [List.findIdx?_cons, if_neg hne, List.findIdx?_succ, ih k x hnd.2 hget]
      rfl

/-- Modelled from the claim text of C1: "the first non-finished player whose
`turnOrder` follows the old roller's, wrapping around" — the active player
with the least `turnOrder` above the given one, or, when none is above it,
the active player with the least `turnOrder` overall.  Used only to compare
the claim's description with the code's `nextTurn`. -/
def claimNextRoller (rollerTurnOrder : Int) (s : GameState) : Option Player :=
  match ((activePlayers s).filter
      (fun p => rollerTurnOrder < p.turnOrder)).argmin (·.turnOrder) with
  | some p => some p
  | none => (activePlayers s).argmin (·.turnOrder)

/-- `argmin` of an injectively-keyed list is any member realizing the minimum. -/
theorem list_argmin_eq_of_min {α : Type _} [DecidableEq α] (f : α → Int) (l : List α) (a : α)
    (ha : a ∈ l) (hmin : ∀ b ∈ l, f a ≤ f b) (hnd : (l.map f).Nodup) :
    l.argmin f = some a := by
  rw [List.argmin_eq_some_iff]
  refine ⟨ha, hmin, ?_⟩
  intro b hb hfb
  have hfeq : f b = f a := le_antisymm hfb (hmin b hb)
  have : b = a := List.inj_on_of_nodup_map hnd hb ha hfeq
  subst this
  exact le_refl _

/-- With distinct `turnOrder` keys the sorted active list is strictly sorted. -/
theorem sortedActive_pairwise_lt (s : GameState)
    (hto : (s.players.map (·.turnOrder)).Nodup) :
    (sortedActivePlayers s).Pairwise (fun a b => a.turnOrder < b.turnOrder) := by
  have h1 := sortedActive_pairwise s
  have h2 : (sortedActivePlayers s).Pairwise (fun a b => a.turnOrder ≠ b.turnOrder) := by
    have hnd := sortedActive_key_nodup s (·.turnOrder) hto
    rw [List.Nodup, List.pairwise_map] at hnd
    exact hnd
  exact (h1.and h2).imp (fun h => lt_of_le_of_ne h.1 h.2)

/-- The head of the turnOrder-sorted active list is the active-list argmin. -/
theorem active_argmin_eq_head (s : GameState)
    (hto : (s.players.map (·.turnOrder)).Nodup)
    (h0 : 0 < (sortedActivePlayers s).length) :
    (activePlayers s).argmin (·.turnOrder) =
      some ((sortedActivePlayers s).get ⟨0, h0⟩) := by
  apply list_argmin_eq_of_min
  · exact ((sortedActive_perm s).mem_iff).mp (List.get_mem _ _ h0)
  · intro b hb
    have hbs : b ∈ sortedActivePlayers s := ((sortedActive_perm s).mem_iff).mpr hb
    obtain ⟨k, hk⟩ := List.mem_iff_get.mp hbs
    rcases Nat.eq_zero_or_pos k.1 with h | h
    · have hk0 : (⟨0, h0⟩ : Fin (sortedActivePlayers s).length) = k := Fin.ext h.symm
      rw [hk0, hk]
    · have hp := (List.pairwise_iff_get.mp (sortedActive_pairwise s)) ⟨0, h0⟩ k h
      rw [hk] at hp
      exact hp
  · have hsub : (activePlayers s).Sublist s.players := List.filter_sublist _
    exact (hsub.map (·.turnOrder)).nodup hto

/-- In the sorted active list, the cyclic successor of index `j` is exactly
what the claim describes: the active player with the least `turnOrder` above
the one at `j`, wrapping to the overall least when nothing is above. -/
theorem claimNextRoller_eq_sorted_succ (s : GameState)
    (hto : (s.players.map (·.turnOrder)).Nodup)
    (j : ℕ) (hj : j < (sortedActivePlayers s).length) :
    claimNextRoller (((sortedActivePlayers s).get ⟨j, hj⟩).turnOrder) s =
      some ((sortedActivePlayers s).get
        ⟨(j + 1) % (sortedActivePlayers s).length, Nat.mod_lt _ (by omega)⟩) := by
  have hstrict := sortedActive_pairwise_lt s hto
  have hfilter_nodup :
      (((activePlayers s).filter
          (fun b => ((sortedActivePlayers s).get ⟨j, hj⟩).turnOrder < b.turnOrder)).map
        (·.turnOrder)).Nodup := by
    have hsub : ((activePlayers s).filter
        (fun b => ((sortedActivePlayers s).get ⟨j, hj⟩).turnOrder < b.turnOrder)).Sublist
        s.players := (List.filter_sublist _).trans (List.filter_sublist _)
    exact (hsub.map (·.turnOrder)).nodup hto
  by_cases hcase : j + 1 < (sortedActivePlayers s).length
  · have hmod : (j + 1) % (sortedActivePlayers s).length = j + 1 := Nat.mod_eq_of_lt hcase
    have hqlt : ((sortedActivePlayers s).get ⟨j, hj⟩).turnOrder <
        ((sortedActivePlayers s).get ⟨j + 1, hcase⟩).turnOrder :=
      (List.pairwise_iff_get.mp hstrict) ⟨j, hj⟩ ⟨j + 1, hcase⟩ (by simp)
    have hargmin : ((activePlayers s).filter
        (fun b => ((sortedActivePlayers s).get ⟨j, hj⟩).turnOrder < b.turnOrder)).argmin
          (·.turnOrder) = some ((sortedActivePlayers s).get ⟨j + 1, hcase⟩) := by
      apply list_argmin_eq_of_min _ _ _ ?_ ?_ hfilter_nodup
      · rw [List.mem_filter]
        refine ⟨((sortedActive_perm s).mem_iff).mp (List.get_mem _ _ hcase), by simpa using hqlt⟩
      · intro b hb
        rw [List.mem_filter] at hb
        obtain ⟨hbmem, hbgt⟩ := hb
        rw [decide_eq_true_eq] at hbgt
        obtain ⟨k, hk⟩ := List.mem_iff_get.mp (((sortedActive_perm s).mem_iff).mpr hbmem)
        have hjk : j < k.1 := by
          by_contra hle
          push_neg at hle
          rcases Nat.lt_or_ge k.1 j with hlt | hge
          · have := (List.pairwise_iff_get.mp hstrict) k ⟨j, hj⟩ hlt
            rw [hk] at this
            omega
          · have hkj : k.1 = j := by omega
            have : b = (sortedActivePlayers s).get ⟨j, hj⟩ := by
              rw [← hk]; congr 1; exact Fin.ext hkj
            rw [this] at hbgt
            omega
        rcases Nat.lt_or_ge (j + 1) k.1 with hlt | hge
        · have := (List.pairwise_iff_get.mp hstrict) ⟨j + 1, hcase⟩ k hlt
          rw [hk] at this
          omega
        · have hkj1 : k.1 = j + 1 := by omega
          have : b = (sortedActivePlayers s).get ⟨j + 1, hcase⟩ := by
            rw [← hk]; congr 1; exact Fin.ext hkj1
          rw [this]
    simp only [claimNextRoller, hargmin]
    congr 1
    congr 1
    exact Fin.ext hmod.symm
  · have hlast : j + 1 = (sortedActivePlayers s).length := by omega
    have hmod : (j + 1) % (sortedActivePlayers s).length = 0 := by
      rw [hlast, Nat.mod_self]
    have hempty : (activePlayers s).filter
        (fun b => ((sortedActivePlayers s).get ⟨j, hj⟩).turnOrder < b.turnOrder) = [] := by
      rw [List.filter_eq_nil_iff]
      intro b hbmem
      rw [decide_eq_true_eq]
      intro hbgt
      obtain ⟨k, hk⟩ := List.mem_iff_get.mp (((sortedActive_perm s).mem_iff).mpr hbmem)
      rcases Nat.lt_or_ge k.1 j with hlt | hge
      · have := (List.pairwise_iff_get.mp hstrict) k ⟨j, hj⟩ hlt
        rw [hk] at this
        omega
      · have hkj : k.1 = j := by omega
        have : b = (sortedActivePlayers s).get ⟨j, hj⟩ := by
          rw [← hk]; congr 1; exact Fin.ext hkj
        rw [this] at hbgt
        omega
    have h0 : 0 < (sortedActivePlayers s).length := by omega
    simp only [claimNextRoller, hempty, List.argmin_nil]
    rw [active_argmin_eq_head s hto h0]
    congr 1
    congr 1
    exact Fin.ext hmod.symm

/-- What one `nextTurn` call does to the rotation-relevant fields when the
current roller sits at index `j` of the sorted active list: the player list is
untouched, the roller moves to the cyclic successor, and the turn/round
counters roll over exactly at the active-player count. -/
theorem nextTurn_fields (s : GameState) (now : Int) (j : ℕ)
    (hid : (s.players.map (·.id)).Nodup)
    (hj : j < (sortedActivePlayers s).length)
    (hroller : s.currentDiceRollerId = ((sortedActivePlayers s).get ⟨j, hj⟩).id) :
    (nextTurn now s).players = s.players ∧
    (nextTurn now s).currentDiceRollerId =
      ((sortedActivePlayers s).get
        ⟨(j + 1) % (sortedActivePlayers s).length, Nat.mod_lt _ (by omega)⟩).id ∧
    (nextTurn now s).turnsInCurrentRound =
      (if ((activePlayers s).length : Int) ≤ s.turnsInCurrentRound + 1 then 0
       else s.turnsInCurrentRound + 1) ∧
    (nextTurn now s).currentRound =
      (if ((activePlayers s).length : Int) ≤ s.turnsInCurrentRound + 1 then s.currentRound + 1
       else s.currentRound) := by
  have hlen0 : 0 < (activePlayers s).length := by
    have := sortedActive_length s
    omega
  have hne : ¬((activePlayers s).length = 0) := by omega
  have hfind : (sortedActivePlayers s).findIdx?
      (fun p => p.id == s.currentDiceRollerId) = some j := by
    rw [hroller]
    exact list_findIdx?_key_at (·.id) (sortedActivePlayers s) j _
      (sortedActive_key_nodup s (·.id) hid)
      (List.getElem?_eq_getElem hj)
  have hmodlt : (j + 1) % (sortedActivePlayers s).length < (sortedActivePlayers s).length :=
    Nat.mod_lt _ (by omega)
  have hgetnext : (sortedActivePlayers s)[(j + 1) % (sortedActivePlayers s).length]? =
      some ((sortedActivePlayers s).get ⟨_, hmodlt⟩) := List.getElem?_eq_getElem hmodlt
  by_cases hb : ((activePlayers s).length : Int) ≤ s.turnsInCurrentRound + 1
  · simp only [nextTurn, if_neg hne, hfind, hgetnext, Option.map_some', Option.getD_some,
      if_pos hb, if_true]
    exact ⟨trivial, by trivial, by trivial, by trivial⟩
  · simp only [nextTurn, if_neg hne, hfind, hgetnext, Option.map_some', Option.getD_some,
      if_neg hb]
    exact ⟨trivial, by trivial, by trivial, by trivial⟩

/-- Transport a `get` along an equality of lists. -/
theorem list_get_congr {α : Type _} (l₁ l₂ : List α) (h : l₁ = l₂) (i : ℕ)
    (h1 : i < l₁.length) (h2 : i < l₂.length) : l₁.get ⟨i, h1⟩ = l₂.get ⟨i, h2⟩ := by
  subst h
  rfl

/-- Transport a `get` along an equality of indices. -/
theorem list_get_idx_congr {α : Type _} (l : List α) (i j : ℕ) (h : i = j)
    (hi : i < l.length) (hj : j < l.length) : l.get ⟨i, hi⟩ = l.get ⟨j, hj⟩ := by
  subst h
  rfl

/-! ## Claim C1: roller rotation in nextTurn -/

/-- Fixture for C1: three players in turn order a, b, c, where the current
roller b has just been marked finished. -/
def exC1 : GameState :=
  mkState [mkPlayer "a" 0 0 false, mkPlayer "b" 1 0 true, mkPlayer "c" 2 0 false] "b" 0

/-- C1 counterexample. With roller b (turnOrder 1) finished and a (0), c (2)
active, the claim demands the next roller be c — the first non-finished player
whose turnOrder follows 1, wrapping — but the code's `findIndex` returns -1
for the vanished roller, so `nextTurn` picks index 0 of the sorted active
list, player a. -/
theorem nextTurn_finished_roller_counterexample :
    exC1.players.find? (fun p => p.id == exC1.currentDiceRollerId)
      = some (mkPlayer "b" 1 0 true) ∧
    (claimNextRoller 1 exC1).map (·.id) = some "c" ∧
    (nextTurn 5 exC1).currentDiceRollerId = "a" ∧ "a" ≠ "c" := by
  have hsorted : sortedActivePlayers exC1 = activePlayers exC1 :=
    List.mergeSort_of_sorted (by decide)
  refine ⟨rfl, by rfl, ?_, by decide⟩
  simp only [nextTurn, hsorted]
  rfl

/-- C1 (amended): when the current roller is still active, `nextTurn` indeed
advances to the next non-finished player in turn-order, cyclically, skipping
finished players (formalized: the new roller is the active player with the
least `turnOrder` above the roller's, or the least overall when none is
above); but when the current roller has just been marked finished, the new
roller is instead always the active player with the least `turnOrder` (the
head of the rotation), not the successor of the old roller's position. -/
theorem nextTurn_roller_rotation (s : GameState) (now : Int)
    (hid : (s.players.map (·.id)).Nodup)
    (hto : (s.players.map (·.turnOrder)).Nodup) :
    (∀ p ∈ activePlayers s, p.id = s.currentDiceRollerId →
      (claimNextRoller p.turnOrder s).map (·.id) =
        some (nextTurn now s).currentDiceRollerId) ∧
    ((∀ p ∈ activePlayers s, p.id ≠ s.currentDiceRollerId) →
      0 < (activePlayers s).length →
      ((activePlayers s).argmin (·.turnOrder)).map (·.id) =
        some (nextTurn now s).currentDiceRollerId) := by
  constructor
  · intro p hp hpid
    obtain ⟨k, hk⟩ := List.mem_iff_get.mp (((sortedActive_perm s).mem_iff).mpr hp)
    have hroller : s.currentDiceRollerId = ((sortedActivePlayers s).get ⟨k.1, k.2⟩).id := by
      rw [← hpid]
      congr 1
      exact hk.symm
    have hfields := nextTurn_fields s now k.1 hid k.2 hroller
    rw [hfields.2.1, ← hk]
    have hsucc := claimNextRoller_eq_sorted_succ s hto k.1 k.2
    have hkk : (sortedActivePlayers s).get k = (sortedActivePlayers s).get ⟨k.1, k.2⟩ := rfl
    rw [hkk, hsucc]
    rfl
  · intro hnone hpos
    have h0 : 0 < (sortedActivePlayers s).length := by
      rw [sortedActive_length]; exact hpos
    have hne : ¬((activePlayers s).length = 0) := by omega
    have hfind : (sortedActivePlayers s).findIdx?
        (fun p => p.id == s.currentDiceRollerId) = none := by
      rw [List.findIdx?_eq_none_iff]
      intro x hx
      simpa using hnone x (((sortedActive_perm s).mem_iff).mp hx)
    have hget0 : (sortedActivePlayers s)[0]? =
        some ((sortedActivePlayers s).get ⟨0, h0⟩) := List.getElem?_eq_getElem h0
    rw [active_argmin_eq_head s hto h0]
    simp only [nextTurn, if_neg hne, hfind, hget0, Option.map_some', Option.getD_some]
    split <;> rfl

/-- C1 witness: the amended theorem at concrete states — the active-roller
branch on a fresh three-player game (roller a, turnOrder 0), and the
finished-roller branch on the C1 counterexample fixture. -/
theorem nextTurn_roller_rotation_witness :
    ((claimNextRoller (mkPlayer "a" 0 0 false).turnOrder exS3).map (·.id) =
      some (nextTurn 4 exS3).currentDiceRollerId) ∧
    (((activePlayers exC1).argmin (·.turnOrder)).map (·.id) =
      some (nextTurn 5 exC1).currentDiceRollerId) :=
  ⟨(nextTurn_roller_rotation exS3 4 (by decide) (by decide)).1
      (mkPlayer "a" 0 0 false) (by decide) (by decide),
   (nextTurn_roller_rotation exC1 5 (by decide) (by decide)).2
      (by decide) (by decide)⟩

/-! ## Claim C4: n calls of nextTurn complete one round -/

/-- Folding `nextTurn` over a list of timestamps that stays strictly below the
round boundary: the player list, round and dice configuration are untouched,
the turn counter adds the number of calls, and the roller index advances by
that number, cyclically. -/
theorem nextTurnN_below_boundary :
    ∀ (nows : List Int) (s : GameState) (j : ℕ)
      (_ : (s.players.map (·.id)).Nodup)
      (hj : j < (sortedActivePlayers s).length)
      (_ : s.currentDiceRollerId = ((sortedActivePlayers s).get ⟨j, hj⟩).id)
      (_ : s.turnsInCurrentRound + nows.length < ((activePlayers s).length : Int)),
      (nextTurnN nows s).players = s.players ∧
      (nextTurnN nows s).turnsInCurrentRound = s.turnsInCurrentRound + nows.length ∧
      (nextTurnN nows s).currentRound = s.currentRound ∧
      ((sortedActivePlayers s)[(j + nows.length) % (sortedActivePlayers s).length]?).map (·.id)
        = some ((nextTurnN nows s).currentDiceRollerId) := by
  intro nows
  induction nows with
  | nil =>
    intro s j hid hj hroller hb
    refine ⟨rfl, by simp [nextTurnN], rfl, ?_⟩
    simp only [List.length_nil, Nat.add_zero, nextTurnN, List.foldl_nil]
    rw [Nat.mod_eq_of_lt hj, List.getElem?_eq_getElem hj]
    simp only [Option.map_some']
    rw [hroller]
    rfl
  | cons t ts ih =>
    intro s j hid hj hroller hb
    have hfields := nextTurn_fields s t j hid hj hroller
    have hplayers : (nextTurn t s).players = s.players := hfields.1
    have hnotb : ¬(((activePlayers s).length : Int) ≤ s.turnsInCurrentRound + 1) := by
      simp only [List.length_cons] at hb
      push_cast at hb ⊢
      omega
    have hturn1 : (nextTurn t s).turnsInCurrentRound = s.turnsInCurrentRound + 1 := by
      rw [hfields.2.2.1, if_neg hnotb]
    have hround1 : (nextTurn t s).currentRound = s.currentRound := by
      rw [hfields.2.2.2, if_neg hnotb]
    have hsorted1 : sortedActivePlayers (nextTurn t s) = sortedActivePlayers s :=
      sortedActive_congr hplayers
    have hactive1 : activePlayers (nextTurn t s) = activePlayers s := by
      simp [activePlayers, hplayers]
    have hmodlt : (j + 1) % (sortedActivePlayers s).length <
        (sortedActivePlayers s).length := Nat.mod_lt _ (by omega)
    have hj1 : (j + 1) % (sortedActivePlayers s).length <
        (sortedActivePlayers (nextTurn t s)).length := by rw [hsorted1]; exact hmodlt
    have hroller1 : (nextTurn t s).currentDiceRollerId =
        ((sortedActivePlayers (nextTurn t s)).get
          ⟨(j + 1) % (sortedActivePlayers s).length, hj1⟩).id := by
      rw [hfields.2.1]
      congr 1
      exact list_get_congr _ _ hsorted1.symm _ hmodlt hj1
    have hid1 : ((nextTurn t s).players.map (·.id)).Nodup := by rw [hplayers]; exact hid
    have hb1 : (nextTurn t s).turnsInCurrentRound + ts.length <
        ((activePlayers (nextTurn t s)).length : Int) := by
      rw [hturn1, hactive1]
      simp only [List.length_cons] at hb
      push_cast at hb ⊢
      omega
    obtain ⟨hP, hT, hR, hD⟩ := ih (nextTurn t s) ((j + 1) % (sortedActivePlayers s).length)
      hid1 hj1 hroller1 hb1
    have hstep : nextTurnN (t :: ts) s = nextTurnN ts (nextTurn t s) := rfl
    refine ⟨?_, ?_, ?_, ?_⟩
    · rw [hstep, hP, hplayers]
    · rw [hstep, hT, hturn1]
      simp only [List.length_cons]
      push_cast
      ring
    · rw [hstep, hR, hround1]
    · rw [hstep, ← hD, hsorted1, Nat.mod_add_mod]
      have hidx : j + 1 + ts.length = j + (t :: ts).length := by
        simp only [List.length_cons]
        omega
      rw [hidx]

/-- C4: starting a fresh round (`turnsInCurrentRound = 0`) with an active
roller among n ≥ 1 active players, exactly n consecutive `nextTurn` calls
restore the original roller, increment `currentRound` by exactly one, and
leave `turnsInCurrentRound` back at 0. -/
theorem nextTurn_round_cycle (s : GameState) (nows : List Int)
    (hid : (s.players.map (·.id)).Nodup)
    (hroller : ∃ p ∈ activePlayers s, p.id = s.currentDiceRollerId)
    (hturns : s.turnsInCurrentRound = 0)
    (hlen : nows.length = (activePlayers s).length) :
    (nextTurnN nows s).currentDiceRollerId = s.currentDiceRollerId ∧
    (nextTurnN nows s).currentRound = s.currentRound + 1 ∧
    (nextTurnN nows s).turnsInCurrentRound = 0 := by
  obtain ⟨p, hp, hpid⟩ := hroller
  obtain ⟨k, hk⟩ := List.mem_iff_get.mp (((sortedActive_perm s).mem_iff).mpr hp)
  have hlen_eq : (sortedActivePlayers s).length = (activePlayers s).length :=
    sortedActive_length s
  have hn : 0 < (activePlayers s).length := by
    have := k.2
    omega
  have hne2 : nows ≠ [] := by
    intro h
    rw [h] at hlen
    simp at hlen
    omega
  obtain ⟨ys, t, hys⟩ : ∃ ys t, nows = ys ++ [t] :=
    ⟨nows.dropLast, nows.getLast hne2, (List.dropLast_append_getLast hne2).symm⟩
  subst hys
  have hyslen : ys.length + 1 = (activePlayers s).length := by
    simpa using hlen
  have hroller0 : s.currentDiceRollerId = ((sortedActivePlayers s).get ⟨k.1, k.2⟩).id := by
    rw [← hpid]
    congr 1
    exact hk.symm
  have hb : s.turnsInCurrentRound + ys.length < ((activePlayers s).length : Int) := by
    rw [hturns]
    omega
  obtain ⟨hP, hT, hR, hD⟩ := nextTurnN_below_boundary ys s k.1 hid k.2 hroller0 hb
  have hsorted1 : sortedActivePlayers (nextTurnN ys s) = sortedActivePlayers s :=
    sortedActive_congr hP
  have hactive1 : activePlayers (nextTurnN ys s) = activePlayers s := by
    simp [activePlayers, hP]
  have hid1 : ((nextTurnN ys s).players.map (·.id)).Nodup := by rw [hP]; exact hid
  have hmodlt : (k.1 + ys.length) % (sortedActivePlayers s).length <
      (sortedActivePlayers s).length := Nat.mod_lt _ (by omega)
  have hj1 : (k.1 + ys.length) % (sortedActivePlayers s).length <
      (sortedActivePlayers (nextTurnN ys s)).length := by rw [hsorted1]; exact hmodlt
  have hroller1 : (nextTurnN ys s).currentDiceRollerId =
      ((sortedActivePlayers (nextTurnN ys s)).get
        ⟨(k.1 + ys.length) % (sortedActivePlayers s).length, hj1⟩).id := by
    rw [List.getElem?_eq_getElem hmodlt] at hD
    simp only [Option.map_some', Option.some.injEq] at hD
    rw [← hD]
    congr 1
    exact list_get_congr _ _ hsorted1.symm _ hmodlt hj1
  have hfields := nextTurn_fields (nextTurnN ys s) t _ hid1 hj1 hroller1
  have hbound : ((activePlayers (nextTurnN ys s)).length : Int) ≤
      (nextTurnN ys s).turnsInCurrentRound + 1 := by
    rw [hactive1, hT, hturns]
    have : (ys.length : Int) + 1 = ((activePlayers s).length : Int) := by
      exact_mod_cast hyslen
    omega
  have hfinal : nextTurnN (ys ++ [t]) s = nextTurn t (nextTurnN ys s) := by
    simp [nextTurnN, List.foldl_append]
  refine ⟨?_, ?_, ?_⟩
  · rw [hfinal, hfields.2.1, hroller0]
    simp only [hsorted1]
    have hidx : ((k.1 + ys.length) % (sortedActivePlayers s).length + 1) %
        (sortedActivePlayers s).length = k.1 := by
      rw [Nat.mod_add_mod]
      have hsum : k.1 + ys.length + 1 = k.1 + (sortedActivePlayers s).length := by omega
      rw [hsum, Nat.add_mod_right]
      exact Nat.mod_eq_of_lt k.2
    have hIlt : ((k.1 + ys.length) % (sortedActivePlayers s).length + 1) %
        (sortedActivePlayers s).length < (sortedActivePlayers s).length :=
      Nat.mod_lt _ (by omega)
    exact congrArg (fun q : Player => q.id)
      ((list_get_congr _ _ hsorted1 _ (by rw [hsorted1]; exact hIlt) hIlt).trans
        (list_get_idx_congr _ _ _ hidx hIlt k.2))
  · rw [hfinal, hfields.2.2.2, if_pos hbound, hR]
  · rw [hfinal, hfields.2.2.1, if_pos hbound]

/-- C4 witness: the round-cycle law on a fresh three-player game, three calls
of `nextTurn`. -/
theorem nextTurn_round_cycle_witness :
    (nextTurnN [4, 5, 6] exS3).currentDiceRollerId = exS3.currentDiceRollerId ∧
    (nextTurnN [4, 5, 6] exS3).currentRound = exS3.currentRound + 1 ∧
    (nextTurnN [4, 5, 6] exS3).turnsInCurrentRound = 0 :=
  nextTurn_round_cycle exS3 [4, 5, 6] (by decide) (by decide) (by decide) (by decide)

/-! ## Claim C8: corrupted-record handling in loadGameState -/

/-- Fixture: a parsed stored record that lacks the `players` array — the
claim's core scenario. -/
def exNoPlayersRecord : JsonValue := .jobj [("gameId", .jstr "game-1")]

/-- Fixture: a parsed stored record whose `players` array is present but whose
`gameId` is missing, so deserialization succeeds and `validateState` itself
raises the corrupted-state error. -/
def exNoGameIdRecord : JsonValue :=
  .jobj [("players", .jarr []), ("snakesAndLadders", .jarr []),
         ("isGameStarted", .jbool false), ("isGameFinished", .jbool false),
         ("createdAt", .jdate 0), ("lastUpdatedAt", .jdate 0)]

/-- C8 counterexample. `exNoGameIdRecord` parses as JSON and fails the
structural validation (no string `gameId`), and `loadGameState` does raise the
distinct corrupted-state error — but the stored record is NOT cleared
afterward: the error thrown by `validateState` is already a
`CorruptedStateError`, so the catch block rethrows it without calling
`clearGameState()`, leaving the record in the store. -/
theorem loadGameState_not_cleared_counterexample :
    loadGameState (some exNoGameIdRecord) =
      (.corruptedState "Missing or invalid gameId", some exNoGameIdRecord) ∧
    some exNoGameIdRecord ≠ (none : Option JsonValue) :=
  ⟨rfl, by simp⟩

/-- Whether a load outcome is the distinct corrupted-state signal (as opposed
to the `null` returned for an absent record or a successful load). -/
def LoadResult.isCorrupted : LoadResult → Bool
  | .corruptedState _ => true
  | _ => false

/-- C8 (amended): an absent record loads as `null` (not an error); a record
whose `players` field is not an array (in particular, absent) makes
deserialization throw, and `loadGameState` clears the stored record and raises
the distinct corrupted-state error; but a record that deserializes and then
fails the structural validation raises the corrupted-state error with the
stored record retained (it is cleared only by a later explicit reset). -/
theorem loadGameState_corruption_handling :
    (loadGameState none = (.noSavedState, none)) ∧
    (∀ r : JsonValue, isArrayV (jget r "players") = false →
      (loadGameState (some r)).1.isCorrupted = true ∧ (loadGameState (some r)).2 = none) ∧
    (∀ (r : JsonValue) (d : DeserializedRaw) (msg : String),
      deserializeStateRaw r = .ok d → validateState d = .error msg →
      loadGameState (some r) = (.corruptedState msg, some r)) := by
  refine ⟨rfl, ?_, ?_⟩
  · intro r hr
    cases hp : jget r "players" with
    | none =>
      constructor <;> simp only [loadGameState, deserializeStateRaw, hp, LoadResult.isCorrupted]
    | some v =>
      cases v with
      | jarr ps =>
        rw [hp] at hr
        simp [isArrayV] at hr
      | jnull =>
        constructor <;> simp only [loadGameState, deserializeStateRaw, hp, LoadResult.isCorrupted]
      | jbool b =>
        constructor <;> simp only [loadGameState, deserializeStateRaw, hp, LoadResult.isCorrupted]
      | jnum q =>
        constructor <;> simp only [loadGameState, deserializeStateRaw, hp, LoadResult.isCorrupted]
      | jstr str =>
        constructor <;> simp only [loadGameState, deserializeStateRaw, hp, LoadResult.isCorrupted]
      | jdate ms =>
        constructor <;> simp only [loadGameState, deserializeStateRaw, hp, LoadResult.isCorrupted]
      | jobj fields =>
        constructor <;> simp only [loadGameState, deserializeStateRaw, hp, LoadResult.isCorrupted]
  · intro r d msg hdes hval
    simp only [loadGameState, hdes, hval]

/-- C8 witness: the handling law at concrete records — no record, a record
lacking the `players` array (corrupted error, record cleared), and a
structurally invalid record with `players` present (corrupted error, record
retained). -/
theorem loadGameState_corruption_handling_witness :
    loadGameState none = (.noSavedState, none) ∧
    ((loadGameState (some exNoPlayersRecord)).1.isCorrupted = true ∧
      (loadGameState (some exNoPlayersRecord)).2 = none) ∧
    loadGameState (some exNoGameIdRecord) =
      (.corruptedState "Missing or invalid gameId", some exNoGameIdRecord) :=
  ⟨loadGameState_corruption_handling.1,
   loadGameState_corruption_handling.2.1 exNoPlayersRecord rfl,
   loadGameState_corruption_handling.2.2 exNoGameIdRecord _ "Missing or invalid gameId" rfl rfl⟩

/-! ## Claim C9: invariants of random hazard generation -/

/-- A successful `createSnake` yields a snake with head above tail whose start
position is fresh among the existing elements. -/
theorem createSnake_ok {id : String} {st en : Int} {l : List SnakeOrLadder}
    {h : SnakeOrLadder} (hok : createSnake id st en l = .ok h) :
    h.kind = .snake ∧ h.startPosition = st ∧ h.endPosition = en ∧ en < st ∧
    ∀ e ∈ l, e.startPosition ≠ st := by
  by_cases h1 : st ≤ en
  · simp [createSnake, validateSnake, h1] at hok
  · by_cases h2 : l.any (fun e => e.startPosition == st) = true
    · simp [createSnake, validateSnake, checkDuplicateStartPosition, h1, h2] at hok
    · simp only [createSnake, validateSnake, checkDuplicateStartPosition,
        if_neg h1, if_neg h2, Except.ok.injEq] at hok
      subst hok
      refine ⟨rfl, rfl, rfl, by omega, ?_⟩
      intro e he heq
      exact h2 (List.any_eq_true.mpr ⟨e, he, by simpa using heq⟩)

/-- A successful `createLadder` yields a ladder with bottom below top whose
start position is fresh among the existing elements. -/
theorem createLadder_ok {id : String} {st en : Int} {l : List SnakeOrLadder}
    {h : SnakeOrLadder} (hok : createLadder id st en l = .ok h) :
    h.kind = .ladder ∧ h.startPosition = st ∧ h.endPosition = en ∧ st < en ∧
    ∀ e ∈ l, e.startPosition ≠ st := by
  by_cases h1 : st ≥ en
  · simp [createLadder, validateLadder, h1] at hok
  · by_cases h2 : l.any (fun e => e.startPosition == st) = true
    · simp [createLadder, validateLadder, checkDuplicateStartPosition, h1, h2] at hok
    · simp only [createLadder, validateLadder, checkDuplicateStartPosition,
        if_neg h1, if_neg h2, Except.ok.injEq] at hok
      subst hok
      refine ⟨rfl, rfl, rfl, by omega, ?_⟩
      intro e he heq
      exact h2 (List.any_eq_true.mpr ⟨e, he, by simpa using heq⟩)

/-- The JS random-int helper stays within `[lo, hi]` when `lo ≤ hi` and the
draw is a legal `Math.random()` value. -/
theorem getRandomInt_bounds (u : ℚ) (lo hi : Int) (h0 : 0 ≤ u) (h1 : u < 1)
    (hlohi : lo ≤ hi) : lo ≤ getRandomInt u lo hi ∧ getRandomInt u lo hi ≤ hi := by
  unfold getRandomInt
  have hpos : (0 : ℚ) < (hi : ℚ) - lo + 1 := by
    have : (lo : ℚ) ≤ hi := by exact_mod_cast hlohi
    linarith
  constructor
  · have hnn : (0 : ℚ) ≤ u * ((hi : ℚ) - lo + 1) := mul_nonneg h0 (le_of_lt hpos)
    have hf : 0 ≤ ⌊u * ((hi : ℚ) - lo + 1)⌋ := Int.floor_nonneg.mpr hnn
    omega
  · have hlt : u * ((hi : ℚ) - lo + 1) < (hi : ℚ) - lo + 1 := by nlinarith
    have hf : ⌊u * ((hi : ℚ) - lo + 1)⌋ < hi - lo + 1 := by
      rw [Int.floor_lt]
      push_cast
      exact hlt
    omega

/-- One snake slot either leaves the accumulated elements unchanged or appends
exactly one accepted snake: head drawn by `getRandomInt` over
`[2 + minDistance, 99]`, tail at least 2 and strictly below the head, and a
start position fresh among the previous elements. -/
theorem snakeAttemptLoop_spec (rand : ℕ → ℚ) (minD maxD : Int) :
    ∀ (fuel : ℕ) (g : GenState),
      (snakeAttemptLoop rand minD maxD fuel g).elements = g.elements ∨
      ∃ (k : ℕ) (snake : SnakeOrLadder),
        (snakeAttemptLoop rand minD maxD fuel g).elements = g.elements ++ [snake] ∧
        snake.kind = .snake ∧
        snake.startPosition = getRandomInt (rand k) (2 + minD) 99 ∧
        2 ≤ snake.endPosition ∧
        snake.endPosition < snake.startPosition ∧
        ∀ e ∈ g.elements, e.startPosition ≠ snake.startPosition := by
  intro fuel
  induction fuel with
  | zero => intro g; left; rfl
  | succ n ih =>
    intro g
    rw [snakeAttemptLoop]
    by_cases hc1 : g.usedEndPositions.contains (getRandomInt (rand g.drawIdx) (2 + minD) 99)
    · rw [if_pos hc1]
      exact ih _
    · rw [if_neg hc1]
      by_cases hc2 : getRandomInt (rand g.drawIdx) (2 + minD) 99 -
            getRandomInt (rand (g.drawIdx + 1)) minD
              (min maxD (getRandomInt (rand g.drawIdx) (2 + minD) 99 - 2)) < 2 ∨
          g.usedEndPositions.contains
            (getRandomInt (rand g.drawIdx) (2 + minD) 99 -
              getRandomInt (rand (g.drawIdx + 1)) minD
                (min maxD (getRandomInt (rand g.drawIdx) (2 + minD) 99 - 2)))
      · rw [if_pos hc2]
        exact ih _
      · rw [if_neg hc2]
        cases hcs : createSnake (toString g.drawIdx)
            (getRandomInt (rand g.drawIdx) (2 + minD) 99)
            (getRandomInt (rand g.drawIdx) (2 + minD) 99 -
              getRandomInt (rand (g.drawIdx + 1)) minD
                (min maxD (getRandomInt (rand g.drawIdx) (2 + minD) 99 - 2)))
            g.elements with
        | error e => exact ih _
        | ok snake =>
          right
          obtain ⟨hkind, hstart, hend, hlt, hfresh⟩ := createSnake_ok hcs
          refine ⟨g.drawIdx, snake, rfl, hkind, hstart, ?_, ?_, ?_⟩
          · rw [hend]
            push_neg at hc2
            omega
          · omega
          · intro e he
            rw [hstart]
            exact hfresh e he

/-- One ladder slot either leaves the accumulated elements unchanged or
appends exactly one accepted ladder: bottom drawn by `getRandomInt` over
`[2, 99 - minDistance]`, top at most 99 and strictly above the bottom, and a
start position fresh among the previous elements. -/
theorem ladderAttemptLoop_spec (rand : ℕ → ℚ) (minD maxD : Int) :
    ∀ (fuel : ℕ) (g : GenState),
      (ladderAttemptLoop rand minD maxD fuel g).elements = g.elements ∨
      ∃ (k : ℕ) (ladder : SnakeOrLadder),
        (ladderAttemptLoop rand minD maxD fuel g).elements = g.elements ++ [ladder] ∧
        ladder.kind = .ladder ∧
        ladder.startPosition = getRandomInt (rand k) 2 (99 - minD) ∧
        ladder.endPosition ≤ 99 ∧
        ladder.startPosition < ladder.endPosition ∧
        ∀ e ∈ g.elements, e.startPosition ≠ ladder.startPosition := by
  intro fuel
  induction fuel with
  | zero => intro g; left; rfl
  | succ n ih =>
    intro g
    rw [ladderAttemptLoop]
    by_cases hc1 : g.usedEndPositions.contains (getRandomInt (rand g.drawIdx) 2 (99 - minD))
    · rw [if_pos hc1]
      exact ih _
    · rw [if_neg hc1]
      by_cases hc2 : getRandomInt (rand g.drawIdx) 2 (99 - minD) +
            getRandomInt (rand (g.drawIdx + 1)) minD
              (min maxD (99 - getRandomInt (rand g.drawIdx) 2 (99 - minD))) > 99 ∨
          g.usedEndPositions.contains
            (getRandomInt (rand g.drawIdx) 2 (99 - minD) +
              getRandomInt (rand (g.drawIdx + 1)) minD
                (min maxD (99 - getRandomInt (rand g.drawIdx) 2 (99 - minD))))
      · rw [if_pos hc2]
        exact ih _
      · rw [if_neg hc2]
        cases hcs : createLadder (toString g.drawIdx)
            (getRandomInt (rand g.drawIdx) 2 (99 - minD))
            (getRandomInt (rand g.drawIdx) 2 (99 - minD) +
              getRandomInt (rand (g.drawIdx + 1)) minD
                (min maxD (99 - getRandomInt (rand g.drawIdx) 2 (99 - minD))))
            g.elements with
        | error e => exact ih _
        | ok ladder =>
          right
          obtain ⟨hkind, hstart, hend, hlt, hfresh⟩ := createLadder_ok hcs
          refine ⟨g.drawIdx, ladder, rfl, hkind, hstart, ?_, ?_, ?_⟩
          · rw [hend]
            push_neg at hc2
            omega
          · omega
          · intro e he
            rw [hstart]
            exact hfresh e he

/-- Any property of the accumulated element list that survives appending an
accepted snake is preserved by the whole snake-slot loop. -/
theorem snakeSlots_preserve (rand : ℕ → ℚ) (minD maxD : Int)
    (P : List SnakeOrLadder → Prop)
    (hstep : ∀ (l : List SnakeOrLadder) (k : ℕ) (snake : SnakeOrLadder),
      P l → snake.kind = .snake →
      snake.startPosition = getRandomInt (rand k) (2 + minD) 99 →
      2 ≤ snake.endPosition → snake.endPosition < snake.startPosition →
      (∀ e ∈ l, e.startPosition ≠ snake.startPosition) → P (l ++ [snake])) :
    ∀ (n : ℕ) (g : GenState), P g.elements →
      P ((snakeSlots rand minD maxD n g).elements) := by
  intro n
  induction n with
  | zero => intro g hg; exact hg
  | succ m ih =>
    intro g hg
    rw [snakeSlots]
    apply ih
    rcases snakeAttemptLoop_spec rand minD maxD 100 g with heq | ⟨k, snake, heq, hk, hs, he, hl, hf⟩
    · rw [heq]; exact hg
    · rw [heq]
      exact hstep g.elements k snake hg hk hs he hl hf

/-- Any property of the accumulated element list that survives appending an
accepted ladder is preserved by the whole ladder-slot loop. -/
theorem ladderSlots_preserve (rand : ℕ → ℚ) (minD maxD : Int)
    (P : List SnakeOrLadder → Prop)
    (hstep : ∀ (l : List SnakeOrLadder) (k : ℕ) (ladder : SnakeOrLadder),
      P l → ladder.kind = .ladder →
      ladder.startPosition = getRandomInt (rand k) 2 (99 - minD) →
      ladder.endPosition ≤ 99 → ladder.startPosition < ladder.endPosition →
      (∀ e ∈ l, e.startPosition ≠ ladder.startPosition) → P (l ++ [ladder])) :
    ∀ (n : ℕ) (g : GenState), P g.elements →
      P ((ladderSlots rand minD maxD n g).elements) := by
  intro n
  induction n with
  | zero => intro g hg; exact hg
  | succ m ih =>
    intro g hg
    rw [ladderSlots]
    apply ih
    rcases ladderAttemptLoop_spec rand minD maxD 100 g with heq | ⟨k, ladder, heq, hk, hs, he, hl, hf⟩
    · rw [heq]; exact hg
    · rw [heq]
      exact hstep g.elements k ladder hg hk hs he hl hf

/-- C9 (amended): for every configuration and every draw sequence the
generated table has pairwise-distinct start positions, every snake has
head strictly above tail and every ladder bottom strictly below top; and
whenever `minDistance ≤ 97` (the default is 10) and the draws are legal
`Math.random()` values in `[0,1)`, every hazard also lies entirely within
positions 2..99.  (Without the `minDistance` bound the 2..99 containment
fails — see the counterexample.) -/
theorem generateSnakesAndLadders_invariants (rand : ℕ → ℚ)
    (config : SnakesAndLaddersConfig) :
    ((generateSnakesAndLadders rand config).Pairwise
        (fun a b => a.startPosition ≠ b.startPosition) ∧
      (∀ h ∈ generateSnakesAndLadders rand config,
        h.kind = .snake → h.endPosition < h.startPosition) ∧
      (∀ h ∈ generateSnakesAndLadders rand config,
        h.kind = .ladder → h.startPosition < h.endPosition)) ∧
    (config.minDistance ≤ 97 → (∀ n, 0 ≤ rand n ∧ rand n < 1) →
      ∀ h ∈ generateSnakesAndLadders rand config,
        2 ≤ h.startPosition ∧ h.startPosition ≤ 99 ∧
        2 ≤ h.endPosition ∧ h.endPosition ≤ 99) := by
  constructor
  · have hstepS : ∀ (l : List SnakeOrLadder) (k : ℕ) (snake : SnakeOrLadder),
        (l.Pairwise (fun a b => a.startPosition ≠ b.startPosition) ∧
          (∀ h ∈ l, h.kind = .snake → h.endPosition < h.startPosition) ∧
          (∀ h ∈ l, h.kind = .ladder → h.startPosition < h.endPosition)) →
        snake.kind = .snake →
        snake.startPosition = getRandomInt (rand k) (2 + config.minDistance) 99 →
        2 ≤ snake.endPosition → snake.endPosition < snake.startPosition →
        (∀ e ∈ l, e.startPosition ≠ snake.startPosition) →
        ((l ++ [snake]).Pairwise (fun a b => a.startPosition ≠ b.startPosition) ∧
          (∀ h ∈ l ++ [snake], h.kind = .snake → h.endPosition < h.startPosition) ∧
          (∀ h ∈ l ++ [snake], h.kind = .ladder → h.startPosition < h.endPosition)) := by
      intro l k snake hP hk hs he hl hf
      refine ⟨?_, ?_, ?_⟩
      · rw [List.pairwise_append]
        refine ⟨hP.1, List.pairwise_singleton _ _, ?_⟩
        intro a ha b hb
        simp only [List.mem_singleton] at hb
        subst hb
        exact hf a ha
      · intro h hmem hk2
        rcases List.mem_append.mp hmem with hin | hin
        · exact hP.2.1 h hin hk2
        · simp only [List.mem_singleton] at hin
          subst hin
          exact hl
      · intro h hmem hk2
        rcases List.mem_append.mp hmem with hin | hin
        · exact hP.2.2 h hin hk2
        · simp only [List.mem_singleton] at hin
          subst hin
          rw [hk] at hk2
          simp at hk2
    have hstepL : ∀ (l : List SnakeOrLadder) (k : ℕ) (ladder : SnakeOrLadder),
        (l.Pairwise (fun a b => a.startPosition ≠ b.startPosition) ∧
          (∀ h ∈ l, h.kind = .snake → h.endPosition < h.startPosition) ∧
          (∀ h ∈ l, h.kind = .ladder → h.startPosition < h.endPosition)) →
        ladder.kind = .ladder →
        ladder.startPosition = getRandomInt (rand k) 2 (99 - config.minDistance) →
        ladder.endPosition ≤ 99 → ladder.startPosition < ladder.endPosition →
        (∀ e ∈ l, e.startPosition ≠ ladder.startPosition) →
        ((l ++ [ladder]).Pairwise (fun a b => a.startPosition ≠ b.startPosition) ∧
          (∀ h ∈ l ++ [ladder], h.kind = .snake → h.endPosition < h.startPosition) ∧
          (∀ h ∈ l ++ [ladder], h.kind = .ladder → h.startPosition < h.endPosition)) := by
      intro l k ladder hP hk hs he hl hf
      refine ⟨?_, ?_, ?_⟩
      · rw [List.pairwise_append]
        refine ⟨hP.1, List.pairwise_singleton _ _, ?_⟩
        intro a ha b hb
        simp only [List.mem_singleton] at hb
        subst hb
        exact hf a ha
      · intro h hmem hk2
        rcases List.mem_append.mp hmem with hin | hin
        · exact hP.2.1 h hin hk2
        · simp only [List.mem_singleton] at hin
          subst hin
          rw [hk] at hk2
          simp at hk2
      · intro h hmem hk2
        rcases List.mem_append.mp hmem with hin | hin
        · exact hP.2.2 h hin hk2
        · simp only [List.mem_singleton] at hin
          subst hin
          exact hl
    have hsnake := snakeSlots_preserve rand config.minDistance config.maxDistance
      (fun l => l.Pairwise (fun a b => a.startPosition ≠ b.startPosition) ∧
        (∀ h ∈ l, h.kind = .snake → h.endPosition < h.startPosition) ∧
        (∀ h ∈ l, h.kind = .ladder → h.startPosition < h.endPosition))
      hstepS ((config.count / 2).toNat)
      { elements := [], usedEndPositions := [], drawIdx := 0 }
      ⟨List.Pairwise.nil, by simp, by simp⟩
    have hladder := ladderSlots_preserve rand config.minDistance config.maxDistance
      (fun l => l.Pairwise (fun a b => a.startPosition ≠ b.startPosition) ∧
        (∀ h ∈ l, h.kind = .snake → h.endPosition < h.startPosition) ∧
        (∀ h ∈ l, h.kind = .ladder → h.startPosition < h.endPosition))
      hstepL ((config.count - config.count / 2).toNat) _ hsnake
    exact hladder
  · intro hmin hrand
    have hstepS : ∀ (l : List SnakeOrLadder) (k : ℕ) (snake : SnakeOrLadder),
        (∀ h ∈ l, 2 ≤ h.startPosition ∧ h.startPosition ≤ 99 ∧
          2 ≤ h.endPosition ∧ h.endPosition ≤ 99) →
        snake.kind = .snake →
        snake.startPosition = getRandomInt (rand k) (2 + config.minDistance) 99 →
        2 ≤ snake.endPosition → snake.endPosition < snake.startPosition →
        (∀ e ∈ l, e.startPosition ≠ snake.startPosition) →
        ∀ h ∈ l ++ [snake], 2 ≤ h.startPosition ∧ h.startPosition ≤ 99 ∧
          2 ≤ h.endPosition ∧ h.endPosition ≤ 99 := by
      intro l k snake hP hk hs he hl hf h hmem
      rcases List.mem_append.mp hmem with hin | hin
      · exact hP h hin
      · simp only [List.mem_singleton] at hin
        subst hin
        have hb := getRandomInt_bounds (rand k) (2 + config.minDistance) 99
          (hrand k).1 (hrand k).2 (by omega)
        rw [← hs] at hb
        refine ⟨by omega, by omega, by omega, by omega⟩
    have hstepL : ∀ (l : List SnakeOrLadder) (k : ℕ) (ladder : SnakeOrLadder),
        (∀ h ∈ l, 2 ≤ h.startPosition ∧ h.startPosition ≤ 99 ∧
          2 ≤ h.endPosition ∧ h.endPosition ≤ 99) →
        ladder.kind = .ladder →
        ladder.startPosition = getRandomInt (rand k) 2 (99 - config.minDistance) →
        ladder.endPosition ≤ 99 → ladder.startPosition < ladder.endPosition →
        (∀ e ∈ l, e.startPosition ≠ ladder.startPosition) →
        ∀ h ∈ l ++ [ladder], 2 ≤ h.startPosition ∧ h.startPosition ≤ 99 ∧
          2 ≤ h.endPosition ∧ h.endPosition ≤ 99 := by
      intro l k ladder hP hk hs he hl hf h hmem
      rcases List.mem_append.mp hmem with hin | hin
      · exact hP h hin
      · simp only [List.mem_singleton] at hin
        subst hin
        have hb := getRandomInt_bounds (rand k) 2 (99 - config.minDistance)
          (hrand k).1 (hrand k).2 (by omega)
        rw [← hs] at hb
        refine ⟨by omega, by omega, by omega, by omega⟩
    have hsnake := snakeSlots_preserve rand config.minDistance config.maxDistance
      (fun l => ∀ h ∈ l, 2 ≤ h.startPosition ∧ h.startPosition ≤ 99 ∧
        2 ≤ h.endPosition ∧ h.endPosition ≤ 99)
      hstepS ((config.count / 2).toNat)
      { elements := [], usedEndPositions := [], drawIdx := 0 }
      (by simp)
    have hladder := ladderSlots_preserve rand config.minDistance config.maxDistance
      (fun l => ∀ h ∈ l, 2 ≤ h.startPosition ∧ h.startPosition ≤ 99 ∧
        2 ≤ h.endPosition ∧ h.endPosition ≤ 99)
      hstepL ((config.count - config.count / 2).toNat) _ hsnake
    exact hladder

/-- The draw value 1/2, written without division so that concrete generator
runs reduce in the kernel. -/
def halfDraw : ℚ := ⟨1, 2, by omega, Nat.coprime_one_left 2⟩

/-- C9 counterexample. The claim quantifies over every configuration, but for
`{count := 1, minDistance := 99, maxDistance := 50}` and the legal constant
draw 1/2 (so `0 ≤ 1/2 < 1`), the generator emits a ladder with
`startPosition = 1`: `getRandomInt(2, 99 - 99)` evaluates
`Math.floor(0.5 * (0 - 2 + 1)) + 2 = 1`, and every later check only looks at
the top position, so `createLadder(1, 76, [])` is accepted — a hazard touching
position 1. -/
theorem generateSnakesAndLadders_position1_counterexample :
    (0 ≤ halfDraw ∧ halfDraw < 1) ∧
    (generateSnakesAndLadders (fun _ => halfDraw)
        { count := 1, minDistance := 99, maxDistance := 50 }).map
      (fun h => (h.startPosition, h.endPosition)) = [(1, 76)] := by
  constructor
  · constructor
    · decide
    · decide
  · with_unfolding_all rfl

/-- C9 witness: the invariants at the default configuration (count 14, gaps
10..40, so `minDistance ≤ 97`) with the legal constant draw 0. -/
theorem generateSnakesAndLadders_invariants_witness :
    ((generateSnakesAndLadders (fun _ => (0 : ℚ)) {}).Pairwise
        (fun a b => a.startPosition ≠ b.startPosition) ∧
      (∀ h ∈ generateSnakesAndLadders (fun _ => (0 : ℚ)) {},
        h.kind = .snake → h.endPosition < h.startPosition) ∧
      (∀ h ∈ generateSnakesAndLadders (fun _ => (0 : ℚ)) {},
        h.kind = .ladder → h.startPosition < h.endPosition)) ∧
    (∀ h ∈ generateSnakesAndLadders (fun _ => (0 : ℚ)) {},
      2 ≤ h.startPosition ∧ h.startPosition ≤ 99 ∧
      2 ≤ h.endPosition ∧ h.endPosition ≤ 99) :=
  ⟨(generateSnakesAndLadders_invariants (fun _ => (0 : ℚ)) {}).1,
   (generateSnakesAndLadders_invariants (fun _ => (0 : ℚ)) {}).2 (by decide)
     (fun n => by
       constructor
       · show (0 : ℚ) ≤ 0
         decide
       · show (0 : ℚ) < 1
         decide)⟩

end SnakeGame
